import Mathlib

/-!
# Polylines: a shallow embedding of `src/main.cpp`

The program is an interactive drawing tool built on raylib.  The embedding
follows the source top to bottom: the constants, the `Polyline` class, the
global application state, `GetNextLineColor`, and the body of `main` split
into its initialization, its "Update frame" phase and its "Draw frame" phase.

Modelling conventions.

* `float` values are idealised as exact rationals (`ℚ`); rounding, infinities
  and NaN are outside the model.
* The pair `m_points` / `m_pointsCount` (a raw array and its length) is the
  list of the stored points; `nullptr` with count `0` is the empty list.
* Calls into the rendering surface (`DrawRectangle`, `DrawLineV`) are recorded
  as a list of `DrawCall` values, in the order they are issued.
* raylib itself is not part of the repository.  Its colour constants are
  written out with their RGBA components and `Vector2Distance` is taken as a
  parameter of the functions that call it.
* Behaviour the C++ standard leaves undefined (reading `g_colors` outside its
  bounds, calling a method through a null or stale `g_lineBeingBuilt`) and the
  exception thrown by `Finish` are reported as a `Fault`.
-/

namespace PolylineApp

/-! ## raylib types -/

/-- The raylib `Vector2` struct: two `float` coordinates. -/
structure Vector2 where
  x : ℚ
  y : ℚ
deriving DecidableEq

/-- The raylib `Color` struct: four `unsigned char` components. -/
structure Color where
  r : Nat
  g : Nat
  b : Nat
  a : Nat
deriving DecidableEq

/-- The raylib constant `LIGHTGRAY`. -/
def LIGHTGRAY : Color := ⟨200, 200, 200, 255⟩

/-- The raylib constant `YELLOW`. -/
def YELLOW : Color := ⟨253, 249, 0, 255⟩

/-- The raylib constant `ORANGE`. -/
def ORANGE : Color := ⟨255, 161, 0, 255⟩

/-- The raylib constant `PINK`. -/
def PINK : Color := ⟨255, 109, 194, 255⟩

/-- The raylib constant `RED`. -/
def RED : Color := ⟨230, 41, 55, 255⟩

/-- The raylib constant `GREEN`. -/
def GREEN : Color := ⟨0, 228, 48, 255⟩

/-- The raylib constant `BLUE`. -/
def BLUE : Color := ⟨0, 121, 241, 255⟩

/-- One call issued to the rendering surface. -/
inductive DrawCall where
  | DrawRectangle (posX posY width height : Int) (color : Color)
  | DrawLineV (startPos endPos : Vector2) (color : Color)
deriving DecidableEq

/-- The ways a run of the program can leave its defined behaviour. -/
inductive Fault where
  | logic_error (what : String)
  | out_of_bounds
  | null_dereference
deriving DecidableEq

/-- Conversion of a `float` to `int` as done by a C++ cast: the fractional
part is dropped, rounding toward zero. -/
def floatToInt (v : ℚ) : Int :=
  if 0 ≤ v then ⌊v⌋ else ⌈v⌉

/-! ## Constants (main.cpp 16-19) -/

/-- Constant `POINT_CLICK_RADIUS` (main.cpp 19). -/
def POINT_CLICK_RADIUS : Int := 6

/-- Local constant `POINT_WIDTH` of `Polyline::Draw` (main.cpp 91). -/
def POINT_WIDTH : Int := 5

/-! ## The `Polyline` class (main.cpp 25-137) -/

/-- The private members of `Polyline` (main.cpp 67-69).  `m_points` holds the
`m_pointsCount` stored points. -/
structure Polyline where
  m_points : List Vector2
  m_color : Color
deriving DecidableEq

namespace Polyline

/-- The member `m_pointsCount`: the number of stored points. -/
def m_pointsCount (self : Polyline) : Nat :=
  self.m_points.length

/-- The constructor `Polyline::Polyline(Color)` (main.cpp 72-77): no points,
the given colour. -/
def new (color : Color) : Polyline :=
  ⟨[], color⟩

/-- The method `Polyline::AddPoint` (main.cpp 84-87).  Its body holds only the
comment `// TODO : Implement this`: the call returns without touching any
member, whatever `position` is. -/
def AddPoint (self : Polyline) (_position : Vector2) : Polyline :=
  self

/-- One pass through the body of the loop of `Polyline::Draw` for index `i`
(main.cpp 95-106): the marker rectangle of point `i`, then, unless `i` is `0`,
the line from point `i - 1` to point `i`.  The loop only runs the body for
`i < m_pointsCount`, so both reads are inside the array. -/
def DrawBody (self : Polyline) (i : Nat) : List DrawCall :=
  match self.m_points[i]? with
  | none => []
  | some cur =>
    let marker := DrawCall.DrawRectangle (floatToInt cur.x - POINT_WIDTH / 2)
      (floatToInt cur.y - POINT_WIDTH / 2) POINT_WIDTH POINT_WIDTH self.m_color
    if i = 0 then [marker]
    else
      match self.m_points[i - 1]? with
      | none => [marker]
      | some prev => [marker, DrawCall.DrawLineV prev cur self.m_color]

/-- The method `Polyline::Draw` (main.cpp 89-108): the draw calls of the loop
body for `i = 0, ..., m_pointsCount - 1`, in that order.  The method is
`const`; the object is returned as the second component. -/
def Draw (self : Polyline) : List DrawCall × Polyline :=
  ((List.range self.m_pointsCount).flatMap self.DrawBody, self)

/-- The method `Polyline::DrawPreview` (main.cpp 110-119): nothing when there
are no points, otherwise one line from the last stored point to `point` in
`previewColor`.  The method is `const`; the object is returned as the second
component. -/
def DrawPreview (self : Polyline) (point : Vector2) (previewColor : Color) :
    List DrawCall × Polyline :=
  if self.m_pointsCount = 0 then ([], self)
  else
    match self.m_points[self.m_pointsCount - 1]? with
    | none => ([], self)
    | some last => ([DrawCall.DrawLineV last point previewColor], self)

/-- The method `Polyline::Finish` (main.cpp 121-127): throws `logic_error`
when there are no points, otherwise calls `AddPoint(m_points[0])`.  The first
component tells whether the call returned or threw, the second is the object
afterwards. -/
def Finish (self : Polyline) : Except Fault Unit × Polyline :=
  match self.m_points with
  | [] => (Except.error (Fault.logic_error "Cannot finish a polyline with no points."), self)
  | first :: _ => (Except.ok (), self.AddPoint first)

/-- The method `Polyline::IsCloseToFirstPoint` (main.cpp 129-137): `false`
when there are no points, otherwise whether the absolute value of
`Vector2Distance(m_points[0], point)` is at most `targetDistance`. -/
def IsCloseToFirstPoint (Vector2Distance : Vector2 → Vector2 → ℚ) (self : Polyline)
    (point : Vector2) (targetDistance : ℚ) : Bool :=
  match self.m_points with
  | [] => false
  | first :: _ =>
    let distance := |Vector2Distance first point|
    decide (distance ≤ targetDistance)

end Polyline

/-! ## App state (main.cpp 143-147) -/

/-- The global `g_colors` (main.cpp 143).  The program never writes it. -/
def g_colors : List Color :=
  [RED, GREEN, BLUE, PINK, ORANGE, GREEN]

/-- The mutable globals of the program (main.cpp 144-147).  `g_lines` holds
the polylines the vector points to, in order.  `g_lineBeingBuilt` is either
`nullptr` (`none`) or designates an element of `g_lines` by its position: the
program only ever assigns it `g_lines.back()`. -/
structure AppState where
  g_nextColorIndex : Int
  g_lines : List Polyline
  g_lineBeingBuilt : Option Nat
deriving DecidableEq

/-- The globals as their initializers leave them, before `main` runs. -/
def AppState.startup : AppState :=
  ⟨0, [], none⟩

/-- What one iteration of the main loop reads from the input surface:
`GetMouseX()`, `GetMouseY()`, `IsMouseButtonPressed(MOUSE_BUTTON_LEFT)` and
`IsMouseButtonPressed(MOUSE_BUTTON_RIGHT)`. -/
structure FrameInput where
  mouseX : Int
  mouseY : Int
  leftPressed : Bool
  rightPressed : Bool
deriving DecidableEq

/-- The local `mousePos` of the main loop (main.cpp 193). -/
def FrameInput.mousePos (input : FrameInput) : Vector2 :=
  ⟨(input.mouseX : ℚ), (input.mouseY : ℚ)⟩

/-! ## Functions (main.cpp 153-258) -/

/-- The function `GetNextLineColor` (main.cpp 156-161): reads
`g_colors[g_nextColorIndex]`, then stores
`(g_nextColorIndex + 1) % g_colors.size()`.  The sum is converted to the
unsigned type of `size()` before the remainder is taken (`% 2 ^ 64`). -/
def GetNextLineColor (s : AppState) : Except Fault (Color × AppState) :=
  if s.g_nextColorIndex < 0 then Except.error Fault.out_of_bounds
  else
    match g_colors[s.g_nextColorIndex.toNat]? with
    | none => Except.error Fault.out_of_bounds
    | some c =>
      Except.ok (c, { s with
        g_nextColorIndex := (s.g_nextColorIndex + 1) % 2 ^ 64 % (g_colors.length : Int) })

/-- The statement pair `g_lines.push_back(new Polyline(GetNextLineColor()));
g_lineBeingBuilt = g_lines.back();` (main.cpp 207-208 and 226-227). -/
def startNewLine (s : AppState) : Except Fault AppState :=
  match GetNextLineColor s with
  | Except.error e => Except.error e
  | Except.ok (c, s1) =>
    Except.ok { s1 with
      g_lines := s1.g_lines ++ [Polyline.new c]
      g_lineBeingBuilt := some s1.g_lines.length }

/-- The initialization part of `main` (main.cpp 181-185): one new polyline,
two `AddPoint` calls on `g_lines[0]`, and `g_lineBeingBuilt = g_lines.back()`. -/
def initialization (s : AppState) : Except Fault AppState :=
  match GetNextLineColor s with
  | Except.error e => Except.error e
  | Except.ok (c, s1) =>
    let lines1 := s1.g_lines ++ [Polyline.new c]
    match lines1[0]? with
    | none => Except.error Fault.out_of_bounds
    | some l0 =>
      let lines2 := lines1.set 0 (l0.AddPoint ⟨10, 10⟩)
      match lines2[0]? with
      | none => Except.error Fault.out_of_bounds
      | some l1 =>
        let lines3 := lines2.set 0 (l1.AddPoint ⟨30, 30⟩)
        Except.ok { s1 with
          g_lines := lines3
          g_lineBeingBuilt := some (lines3.length - 1) }

/-- The left-button block of the update phase (main.cpp 200-213). -/
def updateLeftButton (Vector2Distance : Vector2 → Vector2 → ℚ) (s : AppState)
    (input : FrameInput) : Except Fault AppState :=
  match s.g_lineBeingBuilt with
  | none => Except.ok s
  | some i =>
    if input.leftPressed then
      match s.g_lines[i]? with
      | none => Except.error Fault.null_dereference
      | some line =>
        if line.IsCloseToFirstPoint Vector2Distance input.mousePos (POINT_CLICK_RADIUS : ℚ) then
          match line.Finish with
          | (Except.error e, _) => Except.error e
          | (Except.ok (), finished) =>
            startNewLine { s with g_lines := s.g_lines.set i finished }
        else
          Except.ok { s with g_lines := s.g_lines.set i (line.AddPoint input.mousePos) }
    else Except.ok s

/-- The right-button block of the update phase (main.cpp 216-228): every
polyline is deleted, the vector is cleared and a new line is started. -/
def updateRightButton (s : AppState) (input : FrameInput) : Except Fault AppState :=
  if input.rightPressed then startNewLine { s with g_lines := [] }
  else Except.ok s

/-- The "Update frame" phase of one loop iteration (main.cpp 199-228): the
left-button block, then the right-button block. -/
def updateFrame (Vector2Distance : Vector2 → Vector2 → ℚ) (s : AppState)
    (input : FrameInput) : Except Fault AppState :=
  match updateLeftButton Vector2Distance s input with
  | Except.error e => Except.error e
  | Except.ok s1 => updateRightButton s1 input

/-- The "Draw frame" phase of one loop iteration (main.cpp 234-251), as the
list of rectangle and line calls it issues: every polyline drawn in order, the
preview line of the line being built, and the highlight rectangle when the
mouse is close to that line's first point.  The check for the highlight goes
through `g_lineBeingBuilt` without a null test. -/
def drawFrame (Vector2Distance : Vector2 → Vector2 → ℚ) (s : AppState)
    (input : FrameInput) : Except Fault (List DrawCall) :=
  let lineCalls := s.g_lines.flatMap (fun line => line.Draw.1)
  match s.g_lineBeingBuilt with
  | none => Except.error Fault.null_dereference
  | some i =>
    match s.g_lines[i]? with
    | none => Except.error Fault.null_dereference
    | some line =>
      let previewCalls := (line.DrawPreview input.mousePos LIGHTGRAY).1
      let highlightCalls :=
        if line.IsCloseToFirstPoint Vector2Distance input.mousePos (POINT_CLICK_RADIUS : ℚ) then
          [DrawCall.DrawRectangle
            (floatToInt (input.mousePos.x - ((POINT_CLICK_RADIUS / 2 : Int) : ℚ)))
            (floatToInt (input.mousePos.y - ((POINT_CLICK_RADIUS / 2 : Int) : ℚ)))
            POINT_CLICK_RADIUS POINT_CLICK_RADIUS YELLOW]
        else []
      Except.ok (lineCalls ++ previewCalls ++ highlightCalls)

/-- One iteration of the main loop (main.cpp 191-252): the update phase, then
the draw phase on the updated state. -/
def frame (Vector2Distance : Vector2 → Vector2 → ℚ) (s : AppState)
    (input : FrameInput) : Except Fault (AppState × List DrawCall) :=
  match updateFrame Vector2Distance s input with
  | Except.error e => Except.error e
  | Except.ok s1 =>
    match drawFrame Vector2Distance s1 input with
    | Except.error e => Except.error e
    | Except.ok calls => Except.ok (s1, calls)

/-- The states the program can be in at the top of the main loop: the state
left by the initialization, and every state left by a completed iteration. -/
inductive Reachable (Vector2Distance : Vector2 → Vector2 → ℚ) : AppState → Prop where
  | init (s : AppState) (h : initialization AppState.startup = Except.ok s) :
      Reachable Vector2Distance s
  | step (s s1 : AppState) (input : FrameInput) (calls : List DrawCall)
      (hs : Reachable Vector2Distance s)
      (h : frame Vector2Distance s input = Except.ok (s1, calls)) :
      Reachable Vector2Distance s1

/-! ## Notions used to state the properties -/

/-- A distance function to put in place of the `Vector2Distance` parameter at
sample inputs: the formula of raymath with the square root taken in `ℚ`, which
is the Euclidean distance whenever that distance is rational, and is never
negative. -/
def exactDistance (v1 v2 : Vector2) : ℚ :=
  Rat.sqrt ((v1.x - v2.x) * (v1.x - v2.x) + (v1.y - v2.y) * (v1.y - v2.y))

/-- The polyline after `AddPoint` has been called for each point of `ps`, in
order. -/
def Polyline.AddPoints (self : Polyline) (ps : List Vector2) : Polyline :=
  ps.foldl Polyline.AddPoint self

/-- The draw call is a marker rectangle. -/
def DrawCall.isRectangle : DrawCall → Bool
  | DrawCall.DrawRectangle _ _ _ _ _ => true
  | DrawCall.DrawLineV _ _ _ => false

/-- The draw call is a line segment. -/
def DrawCall.isLine : DrawCall → Bool
  | DrawCall.DrawRectangle _ _ _ _ _ => false
  | DrawCall.DrawLineV _ _ _ => true

/-- Number of rectangles among the draw calls. -/
def markerCount (calls : List DrawCall) : Nat :=
  calls.countP DrawCall.isRectangle

/-- Number of line segments among the draw calls. -/
def segmentCount (calls : List DrawCall) : Nat :=
  calls.countP DrawCall.isLine

/-- The globals after `n` successive calls of `GetNextLineColor`. -/
def stateAfterCalls (s : AppState) : Nat → Except Fault AppState
  | 0 => Except.ok s
  | n + 1 =>
    match stateAfterCalls s n with
    | Except.error e => Except.error e
    | Except.ok s1 =>
      match GetNextLineColor s1 with
      | Except.error e => Except.error e
      | Except.ok (_, s2) => Except.ok s2

/-- The colour returned by call number `i` (counting from `0`) in a run of
successive calls of `GetNextLineColor`. -/
def nthCallColor (s : AppState) (i : Nat) : Except Fault Color :=
  match stateAfterCalls s i with
  | Except.error e => Except.error e
  | Except.ok s1 =>
    match GetNextLineColor s1 with
    | Except.error e => Except.error e
    | Except.ok (c, _) => Except.ok c

/-- The open-shape invariant: `g_lines` is not empty and `g_lineBeingBuilt`
designates its last element. -/
def OpenShapeInvariant (s : AppState) : Prop :=
  s.g_lines ≠ [] ∧ s.g_lineBeingBuilt = some (s.g_lines.length - 1)

instance (s : AppState) : Decidable (OpenShapeInvariant s) :=
  inferInstanceAs (Decidable (s.g_lines ≠ [] ∧ s.g_lineBeingBuilt = some (s.g_lines.length - 1)))

/-- The point-add transition on its own: the statement
`g_lineBeingBuilt->AddPoint(mousePos)` (main.cpp 211). -/
def addPointTransition (s : AppState) (input : FrameInput) : Except Fault AppState :=
  match s.g_lineBeingBuilt with
  | none => Except.error Fault.null_dereference
  | some i =>
    match s.g_lines[i]? with
    | none => Except.error Fault.null_dereference
    | some line =>
      Except.ok { s with g_lines := s.g_lines.set i (line.AddPoint input.mousePos) }

/-- The close transition on its own: `g_lineBeingBuilt->Finish()` followed by
the start of a new line (main.cpp 204-208). -/
def closeTransition (s : AppState) : Except Fault AppState :=
  match s.g_lineBeingBuilt with
  | none => Except.error Fault.null_dereference
  | some i =>
    match s.g_lines[i]? with
    | none => Except.error Fault.null_dereference
    | some line =>
      match line.Finish with
      | (Except.error e, _) => Except.error e
      | (Except.ok (), finished) =>
        startNewLine { s with g_lines := s.g_lines.set i finished }

/-- The reset transition on its own: every polyline deleted, the vector
cleared and a new line started (main.cpp 218-227). -/
def resetTransition (s : AppState) : Except Fault AppState :=
  startNewLine { s with g_lines := [] }

/-- The marker the description of `Draw` asks for at a point: a filled 5 by 5
rectangle whose top-left corner is 2 left of and 2 above the truncated
coordinates of the point. -/
def markerSpec (c : Color) (p : Vector2) : DrawCall :=
  DrawCall.DrawRectangle (floatToInt p.x - 2) (floatToInt p.y - 2) 5 5 c

/-- The calls the description of `Draw` asks for after the first point: for
each further point its marker, followed at once by the line from the point
before it. -/
def drawCallsSpecFrom (c : Color) : Vector2 → List Vector2 → List DrawCall
  | _, [] => []
  | prev, cur :: rest =>
    markerSpec c cur :: DrawCall.DrawLineV prev cur c :: drawCallsSpecFrom c cur rest

/-- The calls the description of `Draw` asks for on the points `p0, ...,
p(n-1)`: the marker of `p0`, then for each `i ≥ 1` the marker of `pi` followed
by the line from `p(i-1)` to `pi`. -/
def drawCallsSpec (c : Color) : List Vector2 → List DrawCall
  | [] => []
  | p0 :: rest => markerSpec c p0 :: drawCallsSpecFrom c p0 rest

/-- The highlight rectangle of the draw phase for integer mouse coordinates:
6 by 6, yellow, with its top-left corner 3 left of and 3 above the mouse. -/
def highlightSpec (input : FrameInput) : DrawCall :=
  DrawCall.DrawRectangle (input.mouseX - 3) (input.mouseY - 3) 6 6 YELLOW

/-! ## Properties of the `Polyline` class -/

/-- C1, the code as written: `AddPoint` stores nothing.  On a new polyline a
call with position (10, 10) leaves the point count at 0 instead of 1, the
sequence is not the old one followed by the position, and there is no last
point. -/
theorem C1_AddPoint_stores_nothing :
    ((Polyline.new RED).AddPoint ⟨10, 10⟩).m_pointsCount = 0 ∧
    ((Polyline.new RED).AddPoint ⟨10, 10⟩).m_pointsCount ≠ (Polyline.new RED).m_pointsCount + 1 ∧
    ((Polyline.new RED).AddPoint ⟨10, 10⟩).m_points ≠ (Polyline.new RED).m_points ++ [⟨10, 10⟩] ∧
    ((Polyline.new RED).AddPoint ⟨10, 10⟩).m_points.getLast? = none := by
  simp [Polyline.AddPoint, Polyline.new, Polyline.m_pointsCount]

/-- C3: `Finish` throws `logic_error` exactly when the polyline has zero
points, it returns normally exactly when there is at least one point, and
whenever it throws the polyline (points and colour, hence the count) is what
it was before the call. -/
theorem C3_Finish_throws_iff_empty (self : Polyline) :
    (self.Finish.1 = Except.error (Fault.logic_error "Cannot finish a polyline with no points.")
      ↔ self.m_pointsCount = 0) ∧
    (self.Finish.1 = Except.ok () ↔ self.m_pointsCount ≠ 0) ∧
    (∀ e, self.Finish.1 = Except.error e → self.Finish.2 = self) := by
  obtain ⟨pts, c⟩ := self
  cases pts <;> simp [Polyline.Finish, Polyline.m_pointsCount]

/-- C3 at a new polyline: the call throws and the polyline stays as it was. -/
theorem C3_Finish_throws_iff_empty_witness :
    (Polyline.new RED).Finish.1 =
      Except.error (Fault.logic_error "Cannot finish a polyline with no points.") ∧
    (Polyline.new RED).Finish.2 = Polyline.new RED :=
  ⟨(C3_Finish_throws_iff_empty (Polyline.new RED)).1.2 rfl,
   (C3_Finish_throws_iff_empty (Polyline.new RED)).2.2 _
     ((C3_Finish_throws_iff_empty (Polyline.new RED)).1.2 rfl)⟩

/-- On a polyline whose first point is `first`, when the value
`Vector2Distance` returns for `first` and `p` is not negative, the absolute
value in `IsCloseToFirstPoint` changes nothing: the result is the inclusive
comparison of that value with `d`. -/
theorem IsCloseToFirstPoint_of_nonneg (Vector2Distance : Vector2 → Vector2 → ℚ)
    (self : Polyline) (first p : Vector2) (d : ℚ)
    (hfirst : self.m_points.head? = some first) (hnonneg : 0 ≤ Vector2Distance first p) :
    self.IsCloseToFirstPoint Vector2Distance p d = decide (Vector2Distance first p ≤ d) := by
  obtain ⟨pts, c⟩ := self
  cases pts with
  | nil => simp at hfirst
  | cons q rest =>
    simp only [List.head?_cons, Option.some.injEq] at hfirst
    subst hfirst
    simp [Polyline.IsCloseToFirstPoint, abs_of_nonneg hnonneg]

/-- C5: on a polyline with zero points `IsCloseToFirstPoint` returns false for
every point and every target distance, non-negative or not, whatever the
distance function is. -/
theorem C5_IsCloseToFirstPoint_empty_false (Vector2Distance : Vector2 → Vector2 → ℚ)
    (self : Polyline) (p : Vector2) (d : ℚ) (hempty : self.m_pointsCount = 0) :
    self.IsCloseToFirstPoint Vector2Distance p d = false := by
  obtain ⟨pts, c⟩ := self
  cases pts with
  | nil => rfl
  | cons q rest => simp [Polyline.m_pointsCount] at hempty

/-- C5 at a new polyline, the point (0, 0) and the target distance 6. -/
theorem C5_IsCloseToFirstPoint_empty_false_witness :
    (Polyline.new RED).m_pointsCount = 0 ∧
    (Polyline.new RED).IsCloseToFirstPoint exactDistance ⟨0, 0⟩ 6 = false :=
  ⟨rfl, C5_IsCloseToFirstPoint_empty_false exactDistance (Polyline.new RED) ⟨0, 0⟩ 6 rfl⟩

/-- Whatever points are passed to `AddPoint`, the polyline stays as it was. -/
theorem AddPoints_eq_self (self : Polyline) (ps : List Vector2) :
    self.AddPoints ps = self := by
  induction ps with
  | nil => rfl
  | cons q rest ih => simpa [Polyline.AddPoints, Polyline.AddPoint] using ih

/-- The loop body of `Draw` for an index inside the array issues one
rectangle. -/
theorem DrawBody_markerCount (self : Polyline) (i : Nat) (hi : i < self.m_pointsCount) :
    markerCount (self.DrawBody i) = 1 := by
  have hi2 : i < self.m_points.length := hi
  have hi1 : i - 1 < self.m_points.length := by omega
  by_cases h0 : i = 0
  · subst h0
    simp [Polyline.DrawBody, markerCount, List.getElem?_eq_getElem hi2, DrawCall.isRectangle]
  · simp [Polyline.DrawBody, markerCount, List.getElem?_eq_getElem hi2,
      List.getElem?_eq_getElem hi1, h0, DrawCall.isRectangle]

/-- The loop body of `Draw` for an index inside the array issues one line,
except for index `0`, where it issues none. -/
theorem DrawBody_segmentCount (self : Polyline) (i : Nat) (hi : i < self.m_pointsCount) :
    segmentCount (self.DrawBody i) = if i = 0 then 0 else 1 := by
  have hi2 : i < self.m_points.length := hi
  have hi1 : i - 1 < self.m_points.length := by omega
  by_cases h0 : i = 0
  · subst h0
    simp [Polyline.DrawBody, segmentCount, List.getElem?_eq_getElem hi2, DrawCall.isLine]
  · simp [Polyline.DrawBody, segmentCount, List.getElem?_eq_getElem hi2,
      List.getElem?_eq_getElem hi1, h0, DrawCall.isLine]

/-- The first `n` passes of the loop of `Draw` issue `n` rectangles and
`n - 1` lines. -/
theorem Draw_loop_counts (self : Polyline) (n : Nat) (hn : n ≤ self.m_pointsCount) :
    markerCount ((List.range n).flatMap self.DrawBody) = n ∧
    segmentCount ((List.range n).flatMap self.DrawBody) = n - 1 := by
  induction n with
  | zero => simp [markerCount, segmentCount]
  | succ k ih =>
    have hk : k < self.m_pointsCount := hn
    obtain ⟨ihm, ihs⟩ := ih (Nat.le_of_lt hk)
    have hm := DrawBody_markerCount self k hk
    have hs := DrawBody_segmentCount self k hk
    simp only [markerCount, segmentCount] at ihm ihs hm hs ⊢
    simp only [List.range_succ, List.flatMap_append, List.countP_append, ihm, ihs,
      List.flatMap_cons, List.flatMap_nil, List.append_nil, hm, hs]
    refine ⟨trivial, ?_⟩
    split <;> omega

/-- On a polyline holding `n` stored points, `Draw` issues `n` rectangles and
`n - 1` lines (none when `n` is `0`). -/
theorem Draw_counts (self : Polyline) :
    markerCount self.Draw.1 = self.m_pointsCount ∧
    segmentCount self.Draw.1 = self.m_pointsCount - 1 :=
  Draw_loop_counts self self.m_pointsCount (Nat.le_refl _)

/-- C6, the code as written: after any sequence of `AddPoint` calls on a new
polyline, `Draw` issues no call at all.  For the one point (10, 10) there is
no marker where one is expected, and for the two points (10, 10), (30, 30)
there are no markers and no line where two markers and one line are
expected. -/
theorem C6_Draw_after_AddPoint_issues_nothing :
    (∀ (color : Color) (ps : List Vector2),
      ((Polyline.new color).AddPoints ps).Draw.1 = []) ∧
    markerCount ((Polyline.new RED).AddPoints [⟨10, 10⟩]).Draw.1 = 0 ∧
    markerCount ((Polyline.new RED).AddPoints [⟨10, 10⟩]).Draw.1 ≠
      ([⟨10, 10⟩] : List Vector2).length ∧
    markerCount ((Polyline.new RED).AddPoints [⟨10, 10⟩, ⟨30, 30⟩]).Draw.1 = 0 ∧
    segmentCount ((Polyline.new RED).AddPoints [⟨10, 10⟩, ⟨30, 30⟩]).Draw.1 = 0 ∧
    segmentCount ((Polyline.new RED).AddPoints [⟨10, 10⟩, ⟨30, 30⟩]).Draw.1 ≠
      ([⟨10, 10⟩, ⟨30, 30⟩] : List Vector2).length - 1 := by
  have hall : ∀ (color : Color) (ps : List Vector2),
      ((Polyline.new color).AddPoints ps).Draw.1 = [] := by
    intro color ps
    rw [AddPoints_eq_self]
    rfl
  refine ⟨hall, ?_, ?_, ?_, ?_, ?_⟩ <;> simp [hall, markerCount, segmentCount]

/-- C7: `DrawPreview` issues no call when the polyline has no points; when it
has a last stored point it issues exactly one call, a line from that point to
the cursor in the preview colour, whatever the colour of the polyline is; a
polyline with at least one point has a last point; and in every case the
polyline after the call is the one before it. -/
theorem C7_DrawPreview_calls (self : Polyline) (cursor : Vector2) (previewColor : Color) :
    (self.m_pointsCount = 0 → (self.DrawPreview cursor previewColor).1 = []) ∧
    (∀ last, self.m_points.getLast? = some last →
      (self.DrawPreview cursor previewColor).1 =
        [DrawCall.DrawLineV last cursor previewColor]) ∧
    (self.m_pointsCount ≠ 0 → ∃ last, self.m_points.getLast? = some last) ∧
    (self.DrawPreview cursor previewColor).2 = self := by
  obtain ⟨pts, c⟩ := self
  refine ⟨?_, ?_, ?_, ?_⟩
  · intro h
    simp [Polyline.DrawPreview, h]
  · intro last hlast
    have hne : pts ≠ [] := by
      intro hnil
      simp [hnil] at hlast
    have hlen : pts.length ≠ 0 := by
      simpa [List.length_eq_zero] using hne
    have hget : pts[pts.length - 1]? = some last := by
      rw [← List.getLast?_eq_getElem?]
      exact hlast
    simp [Polyline.DrawPreview, Polyline.m_pointsCount, hlen, hget]
  · intro h
    have hne : pts ≠ [] := by
      intro hnil
      simp [Polyline.m_pointsCount, hnil] at h
    exact ⟨pts.getLast hne, List.getLast?_eq_getLast _ hne⟩
  · unfold Polyline.DrawPreview
    split
    · rfl
    · split <;> rfl

/-- C7 at a new polyline (no call) and at the polyline (10, 10), (30, 30) in
red with the cursor at (50, 5): one light gray line from (30, 30) to the
cursor. -/
theorem C7_DrawPreview_calls_witness :
    ((Polyline.new RED).DrawPreview ⟨50, 5⟩ LIGHTGRAY).1 = [] ∧
    ((Polyline.mk [⟨10, 10⟩, ⟨30, 30⟩] RED).DrawPreview ⟨50, 5⟩ LIGHTGRAY).1 =
      [DrawCall.DrawLineV ⟨30, 30⟩ ⟨50, 5⟩ LIGHTGRAY] :=
  ⟨(C7_DrawPreview_calls (Polyline.new RED) ⟨50, 5⟩ LIGHTGRAY).1 rfl,
   (C7_DrawPreview_calls (Polyline.mk [⟨10, 10⟩, ⟨30, 30⟩] RED) ⟨50, 5⟩ LIGHTGRAY).2.1
     ⟨30, 30⟩ rfl⟩

/-! ## Properties of the application state -/

/-- When `GetNextLineColor` returns: the cursor was a valid position of
`g_colors`, the colour returned is the entry at the cursor, and the only
global written is the cursor, which becomes the next position, wrapping after
the last one. -/
theorem GetNextLineColor_ok_iff (s : AppState) (c : Color) (s2 : AppState) :
    GetNextLineColor s = Except.ok (c, s2) ↔
      0 ≤ s.g_nextColorIndex ∧ s.g_nextColorIndex < 6 ∧
      g_colors[s.g_nextColorIndex.toNat]? = some c ∧
      s2 = ⟨(s.g_nextColorIndex + 1) % 6, s.g_lines, s.g_lineBeingBuilt⟩ := by
  obtain ⟨idx, lines, cur⟩ := s
  simp only [GetNextLineColor]
  by_cases hneg : idx < 0
  · simp only [hneg, if_true]
    constructor
    · intro h
      cases h
    · rintro ⟨h0, -⟩
      omega
  · simp only [hneg, if_false]
    have h0 : 0 ≤ idx := by omega
    cases hget : g_colors[idx.toNat]? with
    | none =>
      have hlen : g_colors.length ≤ idx.toNat := List.getElem?_eq_none_iff.mp hget
      simp only [g_colors, List.length_cons, List.length_nil] at hlen
      constructor
      · intro h
        cases h
      · rintro ⟨-, h6, -⟩
        omega
    | some c1 =>
      have hlt : idx.toNat < g_colors.length := (List.getElem?_eq_some_iff.mp hget).1
      simp only [g_colors, List.length_cons, List.length_nil] at hlt
      have h6 : idx < 6 := by omega
      have hmod : (idx + 1) % 2 ^ 64 % ((g_colors.length : Nat) : Int) = (idx + 1) % 6 := by
        simp only [g_colors, List.length_cons, List.length_nil]
        omega
      simp only [hmod, Except.ok.injEq, Prod.mk.injEq, Option.some.injEq]
      constructor
      · rintro ⟨rfl, rfl⟩
        exact ⟨h0, h6, rfl, rfl⟩
      · rintro ⟨-, -, rfl, rfl⟩
        exact ⟨rfl, rfl⟩

/-- The result of `GetNextLineColor` depends on the cursor only: in a state
with the same cursor it returns the same colour and leaves the same cursor. -/
theorem GetNextLineColor_cursor (s t : AppState) (c : Color) (s2 : AppState)
    (h : GetNextLineColor s = Except.ok (c, s2))
    (hidx : t.g_nextColorIndex = s.g_nextColorIndex) :
    GetNextLineColor t = Except.ok (c, ⟨s2.g_nextColorIndex, t.g_lines, t.g_lineBeingBuilt⟩) := by
  obtain ⟨h0, h6, hget, rfl⟩ := (GetNextLineColor_ok_iff s c s2).mp h
  refine (GetNextLineColor_ok_iff t c _).mpr ⟨?_, ?_, ?_, ?_⟩
  · rw [hidx]; exact h0
  · rw [hidx]; exact h6
  · rw [hidx]; exact hget
  · rw [hidx]

/-- When `startNewLine` returns: `GetNextLineColor` returned a colour `c`, the
cursor is the one it left, a new polyline of colour `c` without points is the
last element of `g_lines`, and it is the line being built. -/
theorem startNewLine_ok_iff (s s1 : AppState) :
    startNewLine s = Except.ok s1 ↔
      ∃ c s2, GetNextLineColor s = Except.ok (c, s2) ∧
        s1 = ⟨s2.g_nextColorIndex, s.g_lines ++ [Polyline.new c], some s.g_lines.length⟩ := by
  unfold startNewLine
  cases hG : GetNextLineColor s with
  | error e => simp
  | ok r =>
    obtain ⟨c, s2⟩ := r
    obtain ⟨-, -, -, hs2⟩ := (GetNextLineColor_ok_iff s c s2).mp hG
    subst hs2
    simp only [Except.ok.injEq, Prod.mk.injEq]
    constructor
    · intro h
      exact ⟨c, _, ⟨rfl, rfl⟩, h.symm⟩
    · rintro ⟨c1, s3, ⟨rfl, rfl⟩, rfl⟩
      rfl

/-- The left-button block either leaves the cursor and the number of
polylines as they were, or makes exactly one call of `GetNextLineColor` and
adds exactly one polyline. -/
theorem updateLeftButton_cursor (Vector2Distance : Vector2 → Vector2 → ℚ)
    (s s1 : AppState) (input : FrameInput)
    (h : updateLeftButton Vector2Distance s input = Except.ok s1) :
    (s1.g_nextColorIndex = s.g_nextColorIndex ∧ s1.g_lines.length = s.g_lines.length) ∨
    (∃ c s2, GetNextLineColor s = Except.ok (c, s2) ∧
      s1.g_nextColorIndex = s2.g_nextColorIndex ∧
      s1.g_lines.length = s.g_lines.length + 1) := by
  unfold updateLeftButton at h
  split at h
  · cases h
    exact Or.inl ⟨rfl, rfl⟩
  · split at h
    · split at h
      · cases h
      · split at h
        · split at h
          · cases h
          · obtain ⟨c, s2, hG, rfl⟩ := (startNewLine_ok_iff _ s1).mp h
            refine Or.inr ⟨c, ⟨s2.g_nextColorIndex, s.g_lines, s.g_lineBeingBuilt⟩, ?_, rfl, ?_⟩
            · exact GetNextLineColor_cursor _ s c s2 hG rfl
            · simp
        · cases h
          exact Or.inl ⟨rfl, by simp⟩
    · cases h
      exact Or.inl ⟨rfl, rfl⟩

/-- The right-button block does nothing when the button is not pressed;
otherwise it makes exactly one call of `GetNextLineColor` and leaves one new
polyline, of the colour returned, as the only polyline and the line being
built. -/
theorem updateRightButton_ok (s s1 : AppState) (input : FrameInput)
    (h : updateRightButton s input = Except.ok s1) :
    (input.rightPressed = false ∧ s1 = s) ∨
    (input.rightPressed = true ∧ ∃ c s2, GetNextLineColor s = Except.ok (c, s2) ∧
      s1 = ⟨s2.g_nextColorIndex, [Polyline.new c], some 0⟩) := by
  unfold updateRightButton at h
  split at h
  · rename_i hp
    obtain ⟨c, s2, hG, rfl⟩ := (startNewLine_ok_iff _ s1).mp h
    refine Or.inr ⟨hp, c, ⟨s2.g_nextColorIndex, s.g_lines, s.g_lineBeingBuilt⟩, ?_, ?_⟩
    · exact GetNextLineColor_cursor _ s c s2 hG rfl
    · simp
  · rename_i hp
    cases h
    exact Or.inl ⟨by simpa using hp, rfl⟩

/-- When the initialization returns, it has made exactly one call of
`GetNextLineColor` and left one polyline, of the colour returned and without
points, as the line being built. -/
theorem initialization_ok (s s1 : AppState) (hlines : s.g_lines = [])
    (h : initialization s = Except.ok s1) :
    ∃ c s2, GetNextLineColor s = Except.ok (c, s2) ∧
      s1 = ⟨s2.g_nextColorIndex, [Polyline.new c], some 0⟩ := by
  unfold initialization at h
  cases hG : GetNextLineColor s with
  | error e => simp [hG] at h
  | ok r =>
    obtain ⟨c, s2⟩ := r
    obtain ⟨-, -, -, hs2⟩ := (GetNextLineColor_ok_iff s c s2).mp hG
    subst hs2
    simp [hG, hlines, Polyline.AddPoint] at h
    exact ⟨c, _, rfl, h.symm⟩

/-- With the cursor at a valid position `k`, `GetNextLineColor` returns entry
`k` of the palette and moves the cursor to `(k + 1) % 6`. -/
theorem GetNextLineColor_of_lt (s : AppState) (k : Nat) (hk : k < 6)
    (h : s.g_nextColorIndex = (k : Int)) :
    ∃ c, g_colors[k]? = some c ∧
      GetNextLineColor s =
        Except.ok (c, ⟨(((k + 1) % 6 : Nat) : Int), s.g_lines, s.g_lineBeingBuilt⟩) := by
  have hlen : k < g_colors.length := by
    simpa [g_colors] using hk
  refine ⟨g_colors[k], List.getElem?_eq_getElem hlen, ?_⟩
  refine (GetNextLineColor_ok_iff s _ _).mpr ⟨by omega, by omega, ?_, ?_⟩
  · rw [h, Int.toNat_ofNat]
    exact List.getElem?_eq_getElem hlen
  · rw [h]
    congr 1

/-- After `n` calls of `GetNextLineColor` from a valid cursor `k`, the cursor
is `(k + n) % 6` and the other globals are untouched. -/
theorem stateAfterCalls_of_lt (s : AppState) (k : Nat) (hk : k < 6)
    (h : s.g_nextColorIndex = (k : Int)) (n : Nat) :
    stateAfterCalls s n =
      Except.ok ⟨(((k + n) % 6 : Nat) : Int), s.g_lines, s.g_lineBeingBuilt⟩ := by
  induction n with
  | zero =>
    obtain ⟨idx, lines, cur⟩ := s
    simp only at h
    subst h
    simp [stateAfterCalls, Nat.mod_eq_of_lt hk]
  | succ m ih =>
    obtain ⟨c, -, hG⟩ := GetNextLineColor_of_lt
      ⟨(((k + m) % 6 : Nat) : Int), s.g_lines, s.g_lineBeingBuilt⟩ ((k + m) % 6)
      (Nat.mod_lt _ (by norm_num)) rfl
    simp only [stateAfterCalls, ih, hG]
    have hmod : ((k + m) % 6 + 1) % 6 = (k + (m + 1)) % 6 := by omega
    rw [hmod]

/-- C8: starting with the cursor at 0, call number `i` of `GetNextLineColor`
returns palette entry `i % 6`, and call number `i + 6` returns the same colour
as call number `i`.  The cursor is written by `GetNextLineColor` alone: the
initialization makes one call and creates one polyline; an update phase makes
`n` calls, `n ≤ 2`, and ends with the cursor those `n` calls produce, where
`n` is the number of polylines added when the right button is not pressed,
and is at least one, with one polyline left, when it is pressed. -/
theorem C8_color_cycle :
    (∀ (s : AppState) (i : Nat), s.g_nextColorIndex = 0 →
      (∃ c, g_colors[i % g_colors.length]? = some c ∧ nthCallColor s i = Except.ok c) ∧
      nthCallColor s (i + g_colors.length) = nthCallColor s i) ∧
    (∀ (s s1 : AppState), s.g_lines = [] → initialization s = Except.ok s1 →
      s1.g_lines.length = 1 ∧
      ∃ s2, stateAfterCalls s 1 = Except.ok s2 ∧
        s2.g_nextColorIndex = s1.g_nextColorIndex) ∧
    (∀ (Vector2Distance : Vector2 → Vector2 → ℚ) (s s1 : AppState) (input : FrameInput),
      updateFrame Vector2Distance s input = Except.ok s1 →
      ∃ n, n ≤ 2 ∧
        (∃ s2, stateAfterCalls s n = Except.ok s2 ∧
          s2.g_nextColorIndex = s1.g_nextColorIndex) ∧
        (input.rightPressed = false → s1.g_lines.length = s.g_lines.length + n) ∧
        (input.rightPressed = true → 1 ≤ n ∧ s1.g_lines.length = 1)) := by
  refine ⟨?_, ?_, ?_⟩
  · intro s i h0
    have hlen : g_colors.length = 6 := rfl
    have hk : s.g_nextColorIndex = ((0 : Nat) : Int) := by simpa using h0
    have hst : ∀ n, stateAfterCalls s n =
        Except.ok ⟨((n % 6 : Nat) : Int), s.g_lines, s.g_lineBeingBuilt⟩ := by
      intro n
      simpa using stateAfterCalls_of_lt s 0 (by norm_num) hk n
    obtain ⟨c, hc, hG⟩ := GetNextLineColor_of_lt
      ⟨((i % 6 : Nat) : Int), s.g_lines, s.g_lineBeingBuilt⟩ (i % 6)
      (Nat.mod_lt _ (by norm_num)) rfl
    refine ⟨⟨c, by rw [hlen]; exact hc, ?_⟩, ?_⟩
    · simp only [nthCallColor, hst, hG]
    · have hmod : (i + 6) % 6 = i % 6 := by omega
      simp only [nthCallColor, hst, hlen, hmod]
  · intro s s1 hlines h
    obtain ⟨c, s2, hG, rfl⟩ := initialization_ok s s1 hlines h
    exact ⟨rfl, s2, by simp [stateAfterCalls, hG], rfl⟩
  · intro dist s s1 input h
    unfold updateFrame at h
    cases hL : updateLeftButton dist s input with
    | error e => simp [hL] at h
    | ok sm =>
      simp only [hL] at h
      rcases updateLeftButton_cursor dist s sm input hL with
        ⟨hidx, hlen⟩ | ⟨c, s2, hG, hidx, hlen⟩
      · rcases updateRightButton_ok sm s1 input h with ⟨hp, rfl⟩ | ⟨hp, c, s2, hG, rfl⟩
        · exact ⟨0, by norm_num, ⟨s, rfl, hidx.symm⟩, fun _ => by simpa using hlen,
            fun hq => by simp [hp] at hq⟩
        · have hG1 := GetNextLineColor_cursor sm s c s2 hG hidx.symm
          exact ⟨1, by norm_num,
            ⟨⟨s2.g_nextColorIndex, s.g_lines, s.g_lineBeingBuilt⟩,
              by simp [stateAfterCalls, hG1], rfl⟩,
            fun hq => by simp [hp] at hq, fun _ => ⟨Nat.le_refl 1, rfl⟩⟩
      · rcases updateRightButton_ok sm s1 input h with ⟨hp, rfl⟩ | ⟨hp, c1, s3, hG3, rfl⟩
        · exact ⟨1, by norm_num, ⟨s2, by simp [stateAfterCalls, hG], hidx.symm⟩,
            fun _ => hlen, fun hq => by simp [hp] at hq⟩
        · have hG2 := GetNextLineColor_cursor sm s2 c1 s3 hG3 hidx.symm
          exact ⟨2, Nat.le_refl 2,
            ⟨⟨s3.g_nextColorIndex, s2.g_lines, s2.g_lineBeingBuilt⟩,
              by simp [stateAfterCalls, hG, hG2], rfl⟩,
            fun hq => by simp [hp] at hq, fun _ => ⟨by norm_num, rfl⟩⟩

/-- C8 at the program start: call number 7 returns the second palette entry,
`GREEN`, the colour call number 1 returns. -/
theorem C8_color_cycle_witness :
    nthCallColor AppState.startup 7 = Except.ok GREEN ∧
    nthCallColor AppState.startup (1 + g_colors.length) = nthCallColor AppState.startup 1 := by
  obtain ⟨c, hc, hcall⟩ := (C8_color_cycle.1 AppState.startup 7 rfl).1
  have hgreen : c = GREEN := by
    simpa [g_colors] using hc.symm
  rw [hgreen] at hcall
  exact ⟨hcall, (C8_color_cycle.1 AppState.startup 1 rfl).2⟩

/-- The cursor `GetNextLineColor` leaves is a valid position of the palette. -/
theorem GetNextLineColor_range (s : AppState) (c : Color) (s2 : AppState)
    (h : GetNextLineColor s = Except.ok (c, s2)) :
    0 ≤ s2.g_nextColorIndex ∧ s2.g_nextColorIndex < 6 := by
  obtain ⟨h0, h6, -, rfl⟩ := (GetNextLineColor_ok_iff s c s2).mp h
  constructor <;> simp only <;> omega

/-- An update phase that starts with the cursor at a valid position of the
palette ends with the cursor at a valid position. -/
theorem updateFrame_cursor_range (Vector2Distance : Vector2 → Vector2 → ℚ)
    (s s1 : AppState) (input : FrameInput)
    (h : updateFrame Vector2Distance s input = Except.ok s1)
    (hs : 0 ≤ s.g_nextColorIndex ∧ s.g_nextColorIndex < 6) :
    0 ≤ s1.g_nextColorIndex ∧ s1.g_nextColorIndex < 6 := by
  unfold updateFrame at h
  cases hL : updateLeftButton Vector2Distance s input with
  | error e => simp [hL] at h
  | ok sm =>
    simp only [hL] at h
    have hsm : 0 ≤ sm.g_nextColorIndex ∧ sm.g_nextColorIndex < 6 := by
      rcases updateLeftButton_cursor Vector2Distance s sm input hL with
        ⟨hidx, -⟩ | ⟨c, s2, hG, hidx, -⟩
      · rw [hidx]; exact hs
      · rw [hidx]; exact GetNextLineColor_range s c s2 hG
    rcases updateRightButton_ok sm s1 input h with ⟨-, rfl⟩ | ⟨-, c, s2, hG, rfl⟩
    · exact hsm
    · exact GetNextLineColor_range sm c s2 hG

/-- In every state the program reaches, the cursor is a valid position of the
palette. -/
theorem Reachable_cursor_range (Vector2Distance : Vector2 → Vector2 → ℚ) (s : AppState)
    (h : Reachable Vector2Distance s) :
    0 ≤ s.g_nextColorIndex ∧ s.g_nextColorIndex < 6 := by
  induction h with
  | init s0 h0 =>
    obtain ⟨c, s2, hG, rfl⟩ := initialization_ok AppState.startup s0 rfl h0
    exact GetNextLineColor_range _ c s2 hG
  | step s0 s1 input calls _ hframe ih =>
    unfold frame at hframe
    cases hU : updateFrame Vector2Distance s0 input with
    | error e => simp [hU] at hframe
    | ok sm =>
      simp only [hU] at hframe
      cases hD : drawFrame Vector2Distance sm input with
      | error e => simp [hD] at hframe
      | ok cs =>
        simp only [hD, Except.ok.injEq, Prod.mk.injEq] at hframe
        obtain ⟨rfl, -⟩ := hframe
        exact updateFrame_cursor_range Vector2Distance s0 sm input hU ih

/-- C9: in every state reachable from the initial state, the cursor
`g_nextColorIndex` is at least 0 and less than the palette size, so the read
of `g_colors` in `GetNextLineColor` is inside the vector, the call returns a
colour, and starting a new line succeeds. -/
theorem C9_cursor_in_bounds (Vector2Distance : Vector2 → Vector2 → ℚ) (s : AppState)
    (h : Reachable Vector2Distance s) :
    0 ≤ s.g_nextColorIndex ∧ s.g_nextColorIndex < (g_colors.length : Int) ∧
    (∃ c s2, g_colors[s.g_nextColorIndex.toNat]? = some c ∧
      GetNextLineColor s = Except.ok (c, s2)) ∧
    (∃ s1, startNewLine s = Except.ok s1) := by
  obtain ⟨h0, h6⟩ := Reachable_cursor_range Vector2Distance s h
  have hk : s.g_nextColorIndex = ((s.g_nextColorIndex.toNat : Nat) : Int) := by omega
  obtain ⟨c, hc, hG⟩ := GetNextLineColor_of_lt s s.g_nextColorIndex.toNat (by omega) hk
  refine ⟨h0, by simpa [g_colors] using h6, ⟨c, _, hc, hG⟩, ?_⟩
  exact ⟨_, (startNewLine_ok_iff s _).mpr ⟨c, _, hG, rfl⟩⟩

/-- C9 at the state reached by the initialization followed by one frame with
the right button pressed: the cursor is 2. -/
theorem C9_cursor_in_bounds_witness :
    Reachable exactDistance ⟨2, [Polyline.new GREEN], some 0⟩ ∧
    (0 : Int) ≤ 2 ∧ (2 : Int) < (g_colors.length : Int) ∧
    (∃ c s2, g_colors[(2 : Int).toNat]? = some c ∧
      GetNextLineColor ⟨2, [Polyline.new GREEN], some 0⟩ = Except.ok (c, s2)) := by
  have hreach : Reachable exactDistance ⟨2, [Polyline.new GREEN], some 0⟩ :=
    Reachable.step ⟨1, [Polyline.new RED], some 0⟩ _ ⟨0, 0, false, true⟩ []
      (Reachable.init _ rfl) rfl
  have hC9 := C9_cursor_in_bounds exactDistance ⟨2, [Polyline.new GREEN], some 0⟩ hreach
  exact ⟨hreach, hC9.1, hC9.2.1, hC9.2.2.1⟩

/-- The distance `exactDistance` gives from a point to itself is 0. -/
theorem exactDistance_self (v : Vector2) : exactDistance v v = 0 := by
  have hz : (v.x - v.x) * (v.x - v.x) + (v.y - v.y) * (v.y - v.y) = 0 * 0 := by ring
  simp only [exactDistance]
  rw [hz, Rat.sqrt_eq]
  simp

/-- C10, the code as written.  The initialization leaves one red polyline
without points (its two `AddPoint` calls store nothing), and a left click at
(10, 10) in that state changes nothing: one polyline, no points, cursor 1,
where three points and a second polyline coloured with palette entry 1 are
expected.  In a state whose open polyline does hold (10, 10), (30, 30), the
same click is within the click radius and takes the closing branch, a new
green polyline is started and the cursor moves from 1 to 2, but the closed
polyline keeps its two points: its count does not grow and its last point is
(30, 30), not its first point. -/
theorem C10_close_click_as_coded :
    initialization AppState.startup = Except.ok ⟨1, [Polyline.new RED], some 0⟩ ∧
    updateFrame exactDistance ⟨1, [Polyline.new RED], some 0⟩ ⟨10, 10, true, false⟩ =
      Except.ok ⟨1, [Polyline.new RED], some 0⟩ ∧
    (Polyline.mk [⟨10, 10⟩, ⟨30, 30⟩] RED).IsCloseToFirstPoint exactDistance
      (FrameInput.mousePos ⟨10, 10, true, false⟩) (POINT_CLICK_RADIUS : ℚ) = true ∧
    updateFrame exactDistance ⟨1, [Polyline.mk [⟨10, 10⟩, ⟨30, 30⟩] RED], some 0⟩
        ⟨10, 10, true, false⟩ =
      Except.ok ⟨2, [Polyline.mk [⟨10, 10⟩, ⟨30, 30⟩] RED, Polyline.new GREEN], some 1⟩ := by
  have hclose : (Polyline.mk [⟨10, 10⟩, ⟨30, 30⟩] RED).IsCloseToFirstPoint exactDistance
      (FrameInput.mousePos ⟨10, 10, true, false⟩) (POINT_CLICK_RADIUS : ℚ) = true := by
    have hpos : FrameInput.mousePos ⟨10, 10, true, false⟩ = (⟨10, 10⟩ : Vector2) := by
      simp [FrameInput.mousePos]
    rw [hpos]
    simp [Polyline.IsCloseToFirstPoint, exactDistance_self, POINT_CLICK_RADIUS]
  refine ⟨rfl, rfl, hclose, ?_⟩
  simp only [updateFrame, updateLeftButton, List.getElem?_cons_zero, hclose, if_true,
    Polyline.Finish, Polyline.AddPoint, List.set_cons_zero]
  rfl

/-! ## Properties of the update and draw phases -/

/-- The left-button block does nothing when the left button is not pressed. -/
theorem updateLeftButton_not_pressed (Vector2Distance : Vector2 → Vector2 → ℚ)
    (s : AppState) (input : FrameInput) (hleft : input.leftPressed = false) :
    updateLeftButton Vector2Distance s input = Except.ok s := by
  unfold updateLeftButton
  cases s.g_lineBeingBuilt <;> simp [hleft]

/-- With the left button pressed and a line being built, the left-button
block is the close transition when the mouse is close to that line's first
point and the point-add transition otherwise. -/
theorem updateLeftButton_pressed (Vector2Distance : Vector2 → Vector2 → ℚ)
    (s : AppState) (input : FrameInput) (i : Nat) (line : Polyline)
    (hleft : input.leftPressed = true) (hopen : s.g_lineBeingBuilt = some i)
    (hline : s.g_lines[i]? = some line) :
    updateLeftButton Vector2Distance s input =
      if line.IsCloseToFirstPoint Vector2Distance input.mousePos (POINT_CLICK_RADIUS : ℚ)
      then closeTransition s else addPointTransition s input := by
  unfold updateLeftButton closeTransition addPointTransition
  simp only [hopen, hleft, hline, if_true]

/-- When the left-button block returns, the update phase is the right-button
block run on the state it left. -/
theorem updateFrame_of_left (Vector2Distance : Vector2 → Vector2 → ℚ)
    (s s1 : AppState) (input : FrameInput)
    (h : updateLeftButton Vector2Distance s input = Except.ok s1) :
    updateFrame Vector2Distance s input = updateRightButton s1 input := by
  unfold updateFrame
  rw [h]

/-- C11, the code as written.  On a new empty open polyline, left clicks at
(100, 100), (200, 50) and (300, 300) each leave the state as it was: the open
polyline still has no points, where the three clicked points are expected.
On an open polyline holding (100, 100), a left click at (200, 100), at
distance 100 from the first point, is not a closing click and also leaves
the state as it was: the clicked point is not appended. -/
theorem C11_add_click_as_coded :
    updateFrame exactDistance ⟨1, [Polyline.new RED], some 0⟩ ⟨100, 100, true, false⟩ =
      Except.ok ⟨1, [Polyline.new RED], some 0⟩ ∧
    updateFrame exactDistance ⟨1, [Polyline.new RED], some 0⟩ ⟨200, 50, true, false⟩ =
      Except.ok ⟨1, [Polyline.new RED], some 0⟩ ∧
    updateFrame exactDistance ⟨1, [Polyline.new RED], some 0⟩ ⟨300, 300, true, false⟩ =
      Except.ok ⟨1, [Polyline.new RED], some 0⟩ ∧
    (Polyline.new RED).m_points ≠ [⟨100, 100⟩, ⟨200, 50⟩, ⟨300, 300⟩] ∧
    (Polyline.mk [⟨100, 100⟩] RED).IsCloseToFirstPoint exactDistance
      (FrameInput.mousePos ⟨200, 100, true, false⟩) (POINT_CLICK_RADIUS : ℚ) = false ∧
    updateFrame exactDistance ⟨1, [Polyline.mk [⟨100, 100⟩] RED], some 0⟩
        ⟨200, 100, true, false⟩ =
      Except.ok ⟨1, [Polyline.mk [⟨100, 100⟩] RED], some 0⟩ := by
  have hfar : (Polyline.mk [⟨100, 100⟩] RED).IsCloseToFirstPoint exactDistance
      (FrameInput.mousePos ⟨200, 100, true, false⟩) (POINT_CLICK_RADIUS : ℚ) = false := by
    have hd : exactDistance ⟨100, 100⟩ ⟨200, 100⟩ = 100 := by
      have hsq : ((100 : ℚ) - 200) * (100 - 200) + (100 - 100) * (100 - 100) = 100 * 100 := by
        norm_num
      simp only [exactDistance]
      rw [hsq, Rat.sqrt_eq]
      norm_num
    have hpos : FrameInput.mousePos ⟨200, 100, true, false⟩ = (⟨200, 100⟩ : Vector2) := by
      simp [FrameInput.mousePos]
    rw [hpos]
    simp only [Polyline.IsCloseToFirstPoint, hd, POINT_CLICK_RADIUS]
    norm_num
  have hleft : updateLeftButton exactDistance ⟨1, [Polyline.mk [⟨100, 100⟩] RED], some 0⟩
      ⟨200, 100, true, false⟩ = Except.ok ⟨1, [Polyline.mk [⟨100, 100⟩] RED], some 0⟩ := by
    rw [updateLeftButton_pressed exactDistance ⟨1, [Polyline.mk [⟨100, 100⟩] RED], some 0⟩
      ⟨200, 100, true, false⟩ 0 (Polyline.mk [⟨100, 100⟩] RED) rfl rfl rfl, hfar]
    rfl
  refine ⟨rfl, rfl, rfl, by simp [Polyline.new], hfar, ?_⟩
  rw [updateFrame_of_left exactDistance _ _ _ hleft]
  rfl

/-- C12: in a state whose cursor is a valid position of the palette, a frame
with the right button pressed and the left button not pressed leaves exactly
one polyline, without points, of the colour at the cursor before the frame;
it is the line being built, every earlier polyline is gone, and the cursor is
one further, wrapping at the palette size. -/
theorem C12_reset_click (Vector2Distance : Vector2 → Vector2 → ℚ) (s : AppState)
    (input : FrameInput) (hleft : input.leftPressed = false)
    (hright : input.rightPressed = true) (h0 : 0 ≤ s.g_nextColorIndex)
    (h6 : s.g_nextColorIndex < (g_colors.length : Int)) :
    ∃ c, g_colors[s.g_nextColorIndex.toNat]? = some c ∧
      updateFrame Vector2Distance s input =
        Except.ok ⟨(s.g_nextColorIndex + 1) % (g_colors.length : Int),
          [Polyline.mk [] c], some 0⟩ ∧
      ∀ s1, updateFrame Vector2Distance s input = Except.ok s1 →
        s1.g_lines.length = 1 ∧
        (∀ line ∈ s1.g_lines, line.m_points = [] ∧ line.m_pointsCount = 0 ∧ line.m_color = c) ∧
        s1.g_lineBeingBuilt = some 0 ∧
        s1.g_nextColorIndex = (s.g_nextColorIndex + 1) % (g_colors.length : Int) := by
  have hlen : ((g_colors.length : Nat) : Int) = 6 := rfl
  rw [hlen] at h6 ⊢
  have hk : s.g_nextColorIndex = ((s.g_nextColorIndex.toNat : Nat) : Int) := by omega
  obtain ⟨c, hc, hG⟩ := GetNextLineColor_of_lt
    ⟨s.g_nextColorIndex, [], s.g_lineBeingBuilt⟩ s.g_nextColorIndex.toNat (by omega) hk
  have hnext : (((s.g_nextColorIndex.toNat + 1) % 6 : Nat) : Int) =
      (s.g_nextColorIndex + 1) % 6 := by omega
  have hupd : updateFrame Vector2Distance s input =
      Except.ok ⟨(s.g_nextColorIndex + 1) % 6, [Polyline.mk [] c], some 0⟩ := by
    simp only [updateFrame, updateLeftButton_not_pressed Vector2Distance s input hleft,
      updateRightButton, hright, if_true, startNewLine, hG, hnext]
    rfl
  refine ⟨c, hc, hupd, ?_⟩
  intro s1 hs1
  rw [hupd] at hs1
  simp only [Except.ok.injEq] at hs1
  subst hs1
  simp [Polyline.m_pointsCount]

/-- C12 with two finished polylines, an open one holding a point, and the
cursor at 3: after the right click one polyline is left, with no points and
the components (255, 109, 194, 255) of `PINK`, palette entry 3, as its colour;
it is the line being built, and the cursor is 4. -/
theorem C12_reset_click_witness :
    updateFrame exactDistance
        ⟨3, [Polyline.mk [⟨0, 0⟩, ⟨9, 0⟩, ⟨0, 0⟩] RED, Polyline.mk [⟨5, 5⟩, ⟨5, 5⟩] GREEN,
          Polyline.mk [⟨7, 7⟩] BLUE], some 2⟩ ⟨50, 60, false, true⟩ =
      Except.ok ⟨4, [Polyline.mk [] ⟨255, 109, 194, 255⟩], some 0⟩ := by
  obtain ⟨c, hc, hupd, -⟩ := C12_reset_click exactDistance
    ⟨3, [Polyline.mk [⟨0, 0⟩, ⟨9, 0⟩, ⟨0, 0⟩] RED, Polyline.mk [⟨5, 5⟩, ⟨5, 5⟩] GREEN,
      Polyline.mk [⟨7, 7⟩] BLUE], some 2⟩ ⟨50, 60, false, true⟩ rfl rfl
    (by decide) (by decide)
  have hpink : c = ⟨255, 109, 194, 255⟩ := by
    simpa [g_colors, PINK] using hc.symm
  rw [hupd, hpink]
  rfl

/-- C13, the code as written: the initialization leaves one red polyline
(palette entry 0), which is the line being built, and the cursor at 1, but
the polyline has no points: the seed points (10, 10) and (30, 30) passed to
`AddPoint` are not stored. -/
theorem C13_initialization_as_coded :
    initialization AppState.startup = Except.ok ⟨1, [Polyline.new RED], some 0⟩ ∧
    g_colors[0]? = some RED ∧
    (Polyline.new RED).m_points = [] ∧
    (Polyline.new RED).m_points ≠ [⟨10, 10⟩, ⟨30, 30⟩] := by
  refine ⟨rfl, rfl, rfl, ?_⟩
  simp [Polyline.new]

/-- The only fault of `GetNextLineColor` is the read outside `g_colors`. -/
theorem GetNextLineColor_error (s : AppState) (e : Fault)
    (h : GetNextLineColor s = Except.error e) : e = Fault.out_of_bounds := by
  unfold GetNextLineColor at h
  split at h
  · cases h
    rfl
  · split at h
    · cases h
      rfl
    · cases h

/-- The only fault of `startNewLine` is the read outside `g_colors`. -/
theorem startNewLine_error (s : AppState) (e : Fault)
    (h : startNewLine s = Except.error e) : e = Fault.out_of_bounds := by
  unfold startNewLine at h
  cases hG : GetNextLineColor s with
  | error e1 =>
    rw [hG] at h
    cases h
    exact GetNextLineColor_error s e hG
  | ok r =>
    rw [hG] at h
    cases h

/-- A polyline the mouse is close to has a first point, so `Finish` returns
normally on it. -/
theorem Finish_ok_of_close (Vector2Distance : Vector2 → Vector2 → ℚ) (line : Polyline)
    (p : Vector2) (d : ℚ) (h : line.IsCloseToFirstPoint Vector2Distance p d = true) :
    line.m_pointsCount ≠ 0 ∧ line.Finish = (Except.ok (), line) := by
  obtain ⟨pts, c⟩ := line
  cases pts with
  | nil => simp [Polyline.IsCloseToFirstPoint] at h
  | cons q rest => simp [Polyline.m_pointsCount, Polyline.Finish, Polyline.AddPoint]

/-- The left-button block never ends with the `logic_error` of `Finish`. -/
theorem updateLeftButton_no_logic_error (Vector2Distance : Vector2 → Vector2 → ℚ)
    (s : AppState) (input : FrameInput) (what : String) :
    updateLeftButton Vector2Distance s input ≠ Except.error (Fault.logic_error what) := by
  intro h
  unfold updateLeftButton at h
  split at h
  · cases h
  · split at h
    · split at h
      · cases h
      · split at h
        · rename_i line _ hclose
          rw [(Finish_ok_of_close Vector2Distance line _ _ hclose).2] at h
          simp only at h
          have := startNewLine_error _ _ h
          cases this
        · cases h
    · cases h

/-- The only fault of the draw phase is the use of a `g_lineBeingBuilt` that
designates no polyline. -/
theorem drawFrame_error (Vector2Distance : Vector2 → Vector2 → ℚ) (s : AppState)
    (input : FrameInput) (e : Fault)
    (h : drawFrame Vector2Distance s input = Except.error e) :
    e = Fault.null_dereference := by
  unfold drawFrame at h
  simp only at h
  split at h
  · cases h
    rfl
  · split at h
    · cases h
      rfl
    · cases h

/-- C14: whatever the state and the input of the frame, `Finish` is only
called on a polyline that `IsCloseToFirstPoint` accepted, such a polyline has
at least one point and `Finish` returns normally on it, and neither the
left-button block, nor the update phase, nor the whole frame ends with the
`logic_error` of `Finish`. -/
theorem C14_Finish_never_on_empty (Vector2Distance : Vector2 → Vector2 → ℚ) (s : AppState)
    (input : FrameInput) :
    (∀ (line : Polyline) (p : Vector2) (d : ℚ),
      line.IsCloseToFirstPoint Vector2Distance p d = true →
        line.m_pointsCount ≠ 0 ∧ line.Finish.1 = Except.ok ()) ∧
    (∀ (i : Nat) (line : Polyline), input.leftPressed = true →
      s.g_lineBeingBuilt = some i → s.g_lines[i]? = some line → line.m_pointsCount = 0 →
        updateLeftButton Vector2Distance s input = addPointTransition s input) ∧
    (∀ what, updateLeftButton Vector2Distance s input ≠
      Except.error (Fault.logic_error what)) ∧
    (∀ what, updateFrame Vector2Distance s input ≠ Except.error (Fault.logic_error what)) ∧
    (∀ what, frame Vector2Distance s input ≠ Except.error (Fault.logic_error what)) := by
  have hupd : ∀ what, updateFrame Vector2Distance s input ≠
      Except.error (Fault.logic_error what) := by
    intro what h
    unfold updateFrame at h
    cases hL : updateLeftButton Vector2Distance s input with
    | error e =>
      rw [hL] at h
      simp only [Except.error.injEq] at h
      subst h
      exact updateLeftButton_no_logic_error Vector2Distance s input what hL
    | ok sm =>
      rw [hL] at h
      simp only at h
      unfold updateRightButton at h
      split at h
      · have := startNewLine_error _ _ h
        cases this
      · cases h
  refine ⟨?_, ?_, updateLeftButton_no_logic_error Vector2Distance s input, hupd, ?_⟩
  · intro line p d h
    obtain ⟨hne, hfin⟩ := Finish_ok_of_close Vector2Distance line p d h
    exact ⟨hne, by rw [hfin]⟩
  · intro i line hleft hopen hline hempty
    rw [updateLeftButton_pressed Vector2Distance s input i line hleft hopen hline]
    have hfalse : line.IsCloseToFirstPoint Vector2Distance input.mousePos
        (POINT_CLICK_RADIUS : ℚ) = false := by
      obtain ⟨pts, c⟩ := line
      cases pts with
      | nil => rfl
      | cons q rest => simp [Polyline.m_pointsCount] at hempty
    simp [hfalse]
  · intro what h
    unfold frame at h
    cases hU : updateFrame Vector2Distance s input with
    | error e =>
      rw [hU] at h
      simp only [Except.error.injEq] at h
      subst h
      exact hupd what hU
    | ok sm =>
      rw [hU] at h
      simp only at h
      cases hD : drawFrame Vector2Distance sm input with
      | error e =>
        rw [hD] at h
        simp only [Except.error.injEq] at h
        subst h
        have := drawFrame_error Vector2Distance sm input _ hD
        cases this
      | ok calls =>
        rw [hD] at h
        cases h

/-- C14 at a state whose open polyline is empty, with the left button pressed
at (10, 10): the frame runs the point-add transition, not `Finish`. -/
theorem C14_Finish_never_on_empty_witness :
    updateLeftButton exactDistance ⟨1, [Polyline.new RED], some 0⟩ ⟨10, 10, true, false⟩ =
      addPointTransition ⟨1, [Polyline.new RED], some 0⟩ ⟨10, 10, true, false⟩ :=
  (C14_Finish_never_on_empty exactDistance ⟨1, [Polyline.new RED], some 0⟩
    ⟨10, 10, true, false⟩).2.1 0 (Polyline.new RED) rfl rfl rfl rfl

/-- The state `startNewLine` leaves satisfies the open-shape invariant. -/
theorem startNewLine_invariant (s s1 : AppState) (h : startNewLine s = Except.ok s1) :
    OpenShapeInvariant s1 := by
  obtain ⟨c, s2, -, rfl⟩ := (startNewLine_ok_iff s s1).mp h
  constructor
  · simp
  · simp

/-- The left-button block keeps the open-shape invariant. -/
theorem updateLeftButton_invariant (Vector2Distance : Vector2 → Vector2 → ℚ)
    (s s1 : AppState) (input : FrameInput)
    (h : updateLeftButton Vector2Distance s input = Except.ok s1)
    (hinv : OpenShapeInvariant s) : OpenShapeInvariant s1 := by
  unfold updateLeftButton at h
  split at h
  · cases h
    exact hinv
  · split at h
    · split at h
      · cases h
      · split at h
        · split at h
          · cases h
          · exact startNewLine_invariant _ s1 h
        · cases h
          obtain ⟨hne, hopen⟩ := hinv
          constructor
          · intro hnil
            apply hne
            have hlen := congrArg List.length hnil
            simp only [List.length_set, List.length_nil] at hlen
            exact List.length_eq_zero.mp hlen
          · simpa using hopen
    · cases h
      exact hinv

/-- The update phase keeps the open-shape invariant. -/
theorem updateFrame_invariant (Vector2Distance : Vector2 → Vector2 → ℚ)
    (s s1 : AppState) (input : FrameInput)
    (h : updateFrame Vector2Distance s input = Except.ok s1)
    (hinv : OpenShapeInvariant s) : OpenShapeInvariant s1 := by
  unfold updateFrame at h
  cases hL : updateLeftButton Vector2Distance s input with
  | error e => simp [hL] at h
  | ok sm =>
    simp only [hL] at h
    have hsm := updateLeftButton_invariant Vector2Distance s sm input hL hinv
    unfold updateRightButton at h
    split at h
    · exact startNewLine_invariant _ s1 h
    · cases h
      exact hsm

/-- Every state the program reaches satisfies the open-shape invariant. -/
theorem Reachable_invariant (Vector2Distance : Vector2 → Vector2 → ℚ) (s : AppState)
    (h : Reachable Vector2Distance s) : OpenShapeInvariant s := by
  induction h with
  | init s0 h0 =>
    obtain ⟨c, s2, -, rfl⟩ := initialization_ok AppState.startup s0 rfl h0
    constructor
    · simp
    · simp
  | step s0 s1 input calls _ hframe ih =>
    unfold frame at hframe
    cases hU : updateFrame Vector2Distance s0 input with
    | error e => simp [hU] at hframe
    | ok sm =>
      simp only [hU] at hframe
      cases hD : drawFrame Vector2Distance sm input with
      | error e => simp [hD] at hframe
      | ok cs =>
        simp only [hD, Except.ok.injEq, Prod.mk.injEq] at hframe
        obtain ⟨rfl, -⟩ := hframe
        exact updateFrame_invariant Vector2Distance s0 sm input hU ih

/-- In a state satisfying the open-shape invariant, `g_lineBeingBuilt`
designates the last polyline of `g_lines`. -/
theorem OpenShapeInvariant_line (s : AppState) (hinv : OpenShapeInvariant s) :
    ∃ line, s.g_lines.getLast? = some line ∧
      s.g_lines[s.g_lines.length - 1]? = some line := by
  obtain ⟨hne, -⟩ := hinv
  refine ⟨s.g_lines.getLast hne, List.getLast?_eq_getLast _ hne, ?_⟩
  rw [← List.getLast?_eq_getElem?]
  exact List.getLast?_eq_getLast _ hne

/-- In a state satisfying the open-shape invariant the draw phase completes. -/
theorem drawFrame_ok_of_invariant (Vector2Distance : Vector2 → Vector2 → ℚ) (s : AppState)
    (input : FrameInput) (hinv : OpenShapeInvariant s) :
    ∃ calls, drawFrame Vector2Distance s input = Except.ok calls := by
  obtain ⟨line, -, hline⟩ := OpenShapeInvariant_line s hinv
  obtain ⟨-, hopen⟩ := hinv
  unfold drawFrame
  simp only [hopen, hline]
  exact ⟨_, rfl⟩

/-- With the cursor at a valid position of the palette, `startNewLine`
returns. -/
theorem startNewLine_returns (s : AppState)
    (hs : 0 ≤ s.g_nextColorIndex ∧ s.g_nextColorIndex < 6) :
    ∃ s1, startNewLine s = Except.ok s1 := by
  have hk : s.g_nextColorIndex = ((s.g_nextColorIndex.toNat : Nat) : Int) := by omega
  obtain ⟨c, -, hG⟩ := GetNextLineColor_of_lt s s.g_nextColorIndex.toNat (by omega) hk
  exact ⟨_, (startNewLine_ok_iff s _).mpr ⟨c, _, hG, rfl⟩⟩

/-- In a state satisfying the open-shape invariant, with the cursor at a valid
position of the palette, the left-button block returns. -/
theorem updateLeftButton_returns (Vector2Distance : Vector2 → Vector2 → ℚ)
    (s : AppState) (input : FrameInput) (hinv : OpenShapeInvariant s)
    (hs : 0 ≤ s.g_nextColorIndex ∧ s.g_nextColorIndex < 6) :
    ∃ sm, updateLeftButton Vector2Distance s input = Except.ok sm := by
  obtain ⟨line, -, hline⟩ := OpenShapeInvariant_line s hinv
  cases hleft : input.leftPressed with
  | false => exact ⟨s, updateLeftButton_not_pressed Vector2Distance s input hleft⟩
  | true =>
    rw [updateLeftButton_pressed Vector2Distance s input _ line hleft hinv.2 hline]
    cases hclose : line.IsCloseToFirstPoint Vector2Distance input.mousePos
      (POINT_CLICK_RADIUS : ℚ) with
    | false =>
      simp only [Bool.false_eq_true, if_false]
      unfold addPointTransition
      simp only [hinv.2, hline]
      exact ⟨_, rfl⟩
    | true =>
      simp only [if_true]
      unfold closeTransition
      simp only [hinv.2, hline, (Finish_ok_of_close Vector2Distance line _ _ hclose).2]
      exact startNewLine_returns _ hs

/-- In a state satisfying the open-shape invariant, with the cursor at a valid
position of the palette, the update phase returns. -/
theorem updateFrame_returns (Vector2Distance : Vector2 → Vector2 → ℚ)
    (s : AppState) (input : FrameInput) (hinv : OpenShapeInvariant s)
    (hs : 0 ≤ s.g_nextColorIndex ∧ s.g_nextColorIndex < 6) :
    ∃ s1, updateFrame Vector2Distance s input = Except.ok s1 := by
  obtain ⟨sm, hL⟩ := updateLeftButton_returns Vector2Distance s input hinv hs
  have hsm : 0 ≤ sm.g_nextColorIndex ∧ sm.g_nextColorIndex < 6 := by
    rcases updateLeftButton_cursor Vector2Distance s sm input hL with
      ⟨hidx, -⟩ | ⟨c, s2, hG, hidx, -⟩
    · rw [hidx]; exact hs
    · rw [hidx]; exact GetNextLineColor_range s c s2 hG
  rw [updateFrame_of_left Vector2Distance s sm input hL]
  unfold updateRightButton
  split
  · exact startNewLine_returns _ hsm
  · exact ⟨sm, rfl⟩

/-- In a state satisfying the open-shape invariant, with the cursor at a valid
position of the palette, a whole frame completes: the update phase returns a
state, which satisfies the invariant, and the draw phase completes on it. -/
theorem frame_returns (Vector2Distance : Vector2 → Vector2 → ℚ)
    (s : AppState) (input : FrameInput) (hinv : OpenShapeInvariant s)
    (hs : 0 ≤ s.g_nextColorIndex ∧ s.g_nextColorIndex < 6) :
    ∃ s1 calls, updateFrame Vector2Distance s input = Except.ok s1 ∧
      drawFrame Vector2Distance s1 input = Except.ok calls ∧
      frame Vector2Distance s input = Except.ok (s1, calls) ∧
      OpenShapeInvariant s1 := by
  obtain ⟨s1, hU⟩ := updateFrame_returns Vector2Distance s input hinv hs
  have hinv1 := updateFrame_invariant Vector2Distance s s1 input hU hinv
  obtain ⟨calls, hD⟩ := drawFrame_ok_of_invariant Vector2Distance s1 input hinv1
  refine ⟨s1, calls, hU, hD, ?_, hinv1⟩
  unfold frame
  rw [hU]
  simp only
  rw [hD]

/-- C15: in every state reachable from the initial state, `g_lines` is not
empty and `g_lineBeingBuilt` is present and designates the last polyline of
`g_lines`.  From such a state, for every input, the update phase returns a
state in which again `g_lines` is not empty and `g_lineBeingBuilt` designates
its last polyline, and the draw phase run on that state, including its
unguarded use of `g_lineBeingBuilt` for the highlight, completes without a
fault: the whole frame completes. -/
theorem C15_open_shape_invariant (Vector2Distance : Vector2 → Vector2 → ℚ) (s : AppState)
    (h : Reachable Vector2Distance s) :
    s.g_lines ≠ [] ∧
    s.g_lineBeingBuilt = some (s.g_lines.length - 1) ∧
    (∃ line, s.g_lines.getLast? = some line ∧
      s.g_lines[s.g_lines.length - 1]? = some line) ∧
    (∀ input : FrameInput, ∃ calls, drawFrame Vector2Distance s input = Except.ok calls) ∧
    (∀ input : FrameInput, ∃ s1 calls,
      updateFrame Vector2Distance s input = Except.ok s1 ∧
      s1.g_lines ≠ [] ∧
      s1.g_lineBeingBuilt = some (s1.g_lines.length - 1) ∧
      drawFrame Vector2Distance s1 input = Except.ok calls ∧
      frame Vector2Distance s input = Except.ok (s1, calls)) := by
  have hinv := Reachable_invariant Vector2Distance s h
  have hs := Reachable_cursor_range Vector2Distance s h
  refine ⟨hinv.1, hinv.2, OpenShapeInvariant_line s hinv,
    fun input => drawFrame_ok_of_invariant Vector2Distance s input hinv, ?_⟩
  intro input
  obtain ⟨s1, calls, hU, hD, hF, hinv1⟩ := frame_returns Vector2Distance s input hinv hs
  exact ⟨s1, calls, hU, hinv1.1, hinv1.2, hD, hF⟩

/-- C15 at the state reached by the initialization followed by a frame with
the left button pressed at (40, 40): one polyline, designated by
`g_lineBeingBuilt`; a frame with the right button pressed completes from
there. -/
theorem C15_open_shape_invariant_witness :
    Reachable exactDistance ⟨1, [Polyline.new RED], some 0⟩ ∧
    ([Polyline.new RED] : List Polyline) ≠ [] ∧
    (∃ s1 calls,
      updateFrame exactDistance ⟨1, [Polyline.new RED], some 0⟩ ⟨0, 0, false, true⟩ =
        Except.ok s1 ∧
      s1.g_lines ≠ [] ∧
      s1.g_lineBeingBuilt = some (s1.g_lines.length - 1) ∧
      drawFrame exactDistance s1 ⟨0, 0, false, true⟩ = Except.ok calls ∧
      frame exactDistance ⟨1, [Polyline.new RED], some 0⟩ ⟨0, 0, false, true⟩ =
        Except.ok (s1, calls)) := by
  have hreach : Reachable exactDistance ⟨1, [Polyline.new RED], some 0⟩ :=
    Reachable.step ⟨1, [Polyline.new RED], some 0⟩ _ ⟨40, 40, true, false⟩ []
      (Reachable.init _ rfl) rfl
  have hC15 := C15_open_shape_invariant exactDistance ⟨1, [Polyline.new RED], some 0⟩ hreach
  exact ⟨hreach, hC15.1, hC15.2.2.2.2 ⟨0, 0, false, true⟩⟩

/-- The reset transition returns exactly when `GetNextLineColor` does; it
leaves one new polyline of the colour returned as the line being built, and
the cursor `GetNextLineColor` left. -/
theorem resetTransition_ok_iff (s s1 : AppState) :
    resetTransition s = Except.ok s1 ↔
      ∃ c s2, GetNextLineColor s = Except.ok (c, s2) ∧
        s1 = ⟨s2.g_nextColorIndex, [Polyline.new c], some 0⟩ := by
  unfold resetTransition
  rw [startNewLine_ok_iff]
  constructor
  · rintro ⟨c, s2, hG, rfl⟩
    exact ⟨c, _, GetNextLineColor_cursor _ s c s2 hG rfl, by simp⟩
  · rintro ⟨c, s2, hG, rfl⟩
    exact ⟨c, _, GetNextLineColor_cursor s ⟨s.g_nextColorIndex, [], s.g_lineBeingBuilt⟩ c s2 hG
      rfl, by simp⟩

/-- The description of `Draw` after one more point: the calls before, then
the marker of the new point and the line from the last point before it. -/
theorem drawCallsSpecFrom_append (c : Color) (p : Vector2) (xs : List Vector2) (x : Vector2) :
    drawCallsSpecFrom c p (xs ++ [x]) =
      drawCallsSpecFrom c p xs ++ [markerSpec c x, DrawCall.DrawLineV (xs.getLastD p) x c] := by
  induction xs generalizing p with
  | nil => rfl
  | cons y ys ih =>
    show markerSpec c y :: DrawCall.DrawLineV p y c :: drawCallsSpecFrom c y (ys ++ [x]) = _
    rw [ih y, List.getLastD_cons]
    rfl

/-- The description of `Draw` on a sequence ending in `y`, `x`: the calls for
the sequence ending in `y`, then the marker of `x` and the line from `y` to
`x`. -/
theorem drawCallsSpec_append_two (c : Color) (xs : List Vector2) (y x : Vector2) :
    drawCallsSpec c (xs ++ [y] ++ [x]) =
      drawCallsSpec c (xs ++ [y]) ++ [markerSpec c x, DrawCall.DrawLineV y x c] := by
  cases xs with
  | nil => rfl
  | cons p ps =>
    simp only [List.cons_append, drawCallsSpec, drawCallsSpecFrom_append, List.getLastD_concat]

/-- The loop body of `Draw` at index `0` issues the marker of the first
point. -/
theorem DrawBody_zero (self : Polyline) (p0 : Vector2) (h : self.m_points[0]? = some p0) :
    self.DrawBody 0 = [markerSpec self.m_color p0] := by
  have hw : POINT_WIDTH / 2 = 2 := by decide
  simp only [Polyline.DrawBody, h, if_true, hw, markerSpec]
  rfl

/-- The loop body of `Draw` at index `k + 1` issues the marker of point
`k + 1`, then the line from point `k` to point `k + 1`. -/
theorem DrawBody_succ (self : Polyline) (k : Nat) (prev cur : Vector2)
    (hprev : self.m_points[k]? = some prev) (hcur : self.m_points[k + 1]? = some cur) :
    self.DrawBody (k + 1) =
      [markerSpec self.m_color cur, DrawCall.DrawLineV prev cur self.m_color] := by
  have hw : POINT_WIDTH / 2 = 2 := by decide
  simp only [Polyline.DrawBody, hcur, Nat.add_sub_cancel, hprev, hw, markerSpec,
    Nat.add_one_ne_zero, if_false]
  rfl

/-- The first `n` passes of the loop of `Draw` issue the calls of the
description for the first `n` points. -/
theorem Draw_loop_spec (self : Polyline) (n : Nat) (hn : n ≤ self.m_pointsCount) :
    (List.range n).flatMap self.DrawBody = drawCallsSpec self.m_color (self.m_points.take n) := by
  induction n with
  | zero => rfl
  | succ k ih =>
    have hk : k < self.m_points.length := hn
    have hcur : self.m_points[k]? = some self.m_points[k] := List.getElem?_eq_getElem hk
    rw [List.range_succ, List.flatMap_append, ih (Nat.le_of_lt hk), List.take_succ, hcur]
    simp only [List.flatMap_cons, List.flatMap_nil, List.append_nil, Option.toList]
    cases k with
    | zero =>
      rw [DrawBody_zero self _ hcur]
      rfl
    | succ j =>
      have hj : j < self.m_points.length := by omega
      have hprev : self.m_points[j]? = some self.m_points[j] := List.getElem?_eq_getElem hj
      rw [DrawBody_succ self j _ _ hprev hcur, List.take_succ, hprev]
      simp only [Option.toList]
      rw [drawCallsSpec_append_two]

/-- C17: on the stored points `p0, ..., p(n-1)` and the colour `c`, `Draw`
issues exactly the calls of its description, in order: the 5 by 5 marker of
`p0` in colour `c` with corner `(trunc x - 2, trunc y - 2)`, then for each
`i ≥ 1` the marker of `pi` followed at once by the line from `p(i-1)` to `pi`
in colour `c`, and nothing else; for a point with integer coordinates the
corner is 2 left of and 2 above the point; the polyline is left as it was. -/
theorem C17_Draw_refines_description (self : Polyline) :
    self.Draw.1 = drawCallsSpec self.m_color self.m_points ∧
    (∀ (c : Color) (a b : Int),
      markerSpec c ⟨(a : ℚ), (b : ℚ)⟩ = DrawCall.DrawRectangle (a - 2) (b - 2) 5 5 c) ∧
    self.Draw.2 = self := by
  refine ⟨?_, ?_, rfl⟩
  · have h := Draw_loop_spec self self.m_pointsCount (Nat.le_refl _)
    rw [Polyline.m_pointsCount, List.take_length] at h
    exact h
  · intro c a b
    have hfl : ∀ n : Int, floatToInt (n : ℚ) = n := by
      intro n
      unfold floatToInt
      split <;> simp
    simp only [markerSpec, hfl]

/-- C17 on the red polyline (10, 10), (30, 30): two markers and, right after
the second one, the line between the two points. -/
theorem C17_Draw_refines_description_witness :
    (Polyline.mk [⟨10, 10⟩, ⟨30, 30⟩] RED).Draw.1 =
      [markerSpec RED ⟨10, 10⟩, markerSpec RED ⟨30, 30⟩,
        DrawCall.DrawLineV ⟨10, 10⟩ ⟨30, 30⟩ RED] :=
  (C17_Draw_refines_description (Polyline.mk [⟨10, 10⟩, ⟨30, 30⟩] RED)).1

/-! ## What a frame leaves untouched -/

/-- The left-button block leaves every polyline other than the line being
built as it was, changes no colour, and removes no polyline. -/
theorem updateLeftButton_lines (Vector2Distance : Vector2 → Vector2 → ℚ)
    (s sm : AppState) (input : FrameInput)
    (h : updateLeftButton Vector2Distance s input = Except.ok sm) :
    (∀ j, j < s.g_lines.length → s.g_lineBeingBuilt ≠ some j →
      sm.g_lines[j]? = s.g_lines[j]?) ∧
    (∀ j, j < s.g_lines.length →
      (sm.g_lines[j]?).map Polyline.m_color = (s.g_lines[j]?).map Polyline.m_color) := by
  unfold updateLeftButton at h
  split at h
  · cases h
    exact ⟨fun _ _ _ => rfl, fun _ _ => rfl⟩
  · rename_i i hopen
    split at h
    · split at h
      · cases h
      · rename_i line hline
        have hset : ∀ (q : Polyline), q.m_color = line.m_color →
            (∀ j, j < s.g_lines.length → s.g_lineBeingBuilt ≠ some j →
              (s.g_lines.set i q)[j]? = s.g_lines[j]?) ∧
            (∀ j, j < s.g_lines.length →
              ((s.g_lines.set i q)[j]?).map Polyline.m_color =
                (s.g_lines[j]?).map Polyline.m_color) := by
          intro q hq
          constructor
          · intro j _ hj
            have hij : i ≠ j := by
              intro hij
              apply hj
              rw [hopen, hij]
            exact List.getElem?_set_ne hij
          · intro j hjlt
            by_cases hij : i = j
            · subst hij
              rw [List.getElem?_set_self hjlt, hline]
              simp [hq]
            · rw [List.getElem?_set_ne hij]
        split at h
        · split at h
          · cases h
          · rename_i finished hfin
            have hcolor : finished.m_color = line.m_color := by
              unfold Polyline.Finish at hfin
              split at hfin
              · cases hfin
              · simp only [Prod.mk.injEq] at hfin
                rw [← hfin.2]
                rfl
            obtain ⟨c, s2, -, rfl⟩ := (startNewLine_ok_iff _ sm).mp h
            obtain ⟨h1, h2⟩ := hset finished hcolor
            constructor
            · intro j hjlt hj
              have hlt : j < (s.g_lines.set i finished).length := by simpa using hjlt
              simp only [List.getElem?_append_left hlt]
              exact h1 j hjlt hj
            · intro j hjlt
              have hlt : j < (s.g_lines.set i finished).length := by simpa using hjlt
              simp only [List.getElem?_append_left hlt]
              exact h2 j hjlt
        · cases h
          exact hset _ rfl
    · cases h
      exact ⟨fun _ _ _ => rfl, fun _ _ => rfl⟩

/-- When the close transition returns, a new polyline without points has been
added after the existing ones and it is the line being built. -/
theorem closeTransition_ok (s sm : AppState) (h : closeTransition s = Except.ok sm) :
    sm.g_lineBeingBuilt = some s.g_lines.length ∧
    sm.g_lines.length = s.g_lines.length + 1 ∧
    ∃ c, sm.g_lines[s.g_lines.length]? = some (Polyline.new c) := by
  unfold closeTransition at h
  split at h
  · cases h
  · split at h
    · cases h
    · split at h
      · cases h
      · obtain ⟨c, s2, -, rfl⟩ := (startNewLine_ok_iff _ sm).mp h
        refine ⟨by simp, by simp, c, ?_⟩
        simp only
        rw [List.getElem?_append_right (by simp)]
        simp

/-- C18: in a state satisfying the open-shape invariant, an update phase that
returns keeps the invariant.  Without a reset, every polyline other than the
open one is still at its place with the same points and colour, no polyline
changes colour, and a closing click makes a new polyline, added after the
existing ones, the line being built, so that the polyline just closed is from
then on one of the polylines other than the open one.  With a reset, every
earlier polyline is removed and one new polyline is left. -/
theorem C18_closed_polylines_untouched (Vector2Distance : Vector2 → Vector2 → ℚ)
    (s s1 : AppState) (input : FrameInput) (hinv : OpenShapeInvariant s)
    (h : updateFrame Vector2Distance s input = Except.ok s1) :
    OpenShapeInvariant s1 ∧
    (input.rightPressed = false →
      (∀ j, j < s.g_lines.length - 1 → s1.g_lines[j]? = s.g_lines[j]?) ∧
      (∀ j, j < s.g_lines.length →
        (s1.g_lines[j]?).map Polyline.m_color = (s.g_lines[j]?).map Polyline.m_color) ∧
      (∀ line, input.leftPressed = true →
        s.g_lines[s.g_lines.length - 1]? = some line →
        line.IsCloseToFirstPoint Vector2Distance input.mousePos (POINT_CLICK_RADIUS : ℚ) = true →
          s1.g_lineBeingBuilt = some s.g_lines.length ∧
          s1.g_lines.length = s.g_lines.length + 1 ∧
          ∃ c, s1.g_lines[s.g_lines.length]? = some (Polyline.new c))) ∧
    (input.rightPressed = true →
      ∃ c, s1.g_lines = [Polyline.new c] ∧ s1.g_lineBeingBuilt = some 0) := by
  refine ⟨updateFrame_invariant Vector2Distance s s1 input h hinv, ?_, ?_⟩
  · intro hright
    cases hL : updateLeftButton Vector2Distance s input with
    | error e =>
      unfold updateFrame at h
      simp [hL] at h
    | ok sm =>
      rw [updateFrame_of_left Vector2Distance s sm input hL] at h
      unfold updateRightButton at h
      simp only [hright, Bool.false_eq_true, if_false] at h
      cases h
      obtain ⟨h1, h2⟩ := updateLeftButton_lines Vector2Distance s s1 input hL
      refine ⟨?_, h2, ?_⟩
      · intro j hj
        apply h1 j (by omega)
        rw [hinv.2]
        intro heq
        simp only [Option.some.injEq] at heq
        omega
      · intro line hleft hline hclose
        rw [updateLeftButton_pressed Vector2Distance s input _ line hleft hinv.2 hline,
          hclose] at hL
        exact closeTransition_ok s s1 hL
  · intro hright
    cases hL : updateLeftButton Vector2Distance s input with
    | error e =>
      unfold updateFrame at h
      simp [hL] at h
    | ok sm =>
      rw [updateFrame_of_left Vector2Distance s sm input hL] at h
      rcases updateRightButton_ok sm s1 input h with ⟨hp, -⟩ | ⟨-, c, s2, -, rfl⟩
      · rw [hright] at hp
        cases hp
      · exact ⟨c, rfl, rfl⟩

/-- With a finished red polyline and an open green polyline (10, 10),
(30, 30), the cursor at 2 and a left click at (10, 10), the update phase
closes the green polyline and starts a blue one. -/
theorem updateFrame_close_sample :
    updateFrame exactDistance
        ⟨2, [Polyline.mk [⟨0, 0⟩, ⟨9, 0⟩] RED, Polyline.mk [⟨10, 10⟩, ⟨30, 30⟩] GREEN], some 1⟩
        ⟨10, 10, true, false⟩ =
      Except.ok ⟨3, [Polyline.mk [⟨0, 0⟩, ⟨9, 0⟩] RED, Polyline.mk [⟨10, 10⟩, ⟨30, 30⟩] GREEN,
        Polyline.new BLUE], some 2⟩ := by
  have hclose : (Polyline.mk [⟨10, 10⟩, ⟨30, 30⟩] GREEN).IsCloseToFirstPoint exactDistance
      (FrameInput.mousePos ⟨10, 10, true, false⟩) (POINT_CLICK_RADIUS : ℚ) = true := by
    have hpos : FrameInput.mousePos ⟨10, 10, true, false⟩ = (⟨10, 10⟩ : Vector2) := by
      simp [FrameInput.mousePos]
    rw [hpos]
    simp [Polyline.IsCloseToFirstPoint, exactDistance_self, POINT_CLICK_RADIUS]
  have hleft : updateLeftButton exactDistance
      ⟨2, [Polyline.mk [⟨0, 0⟩, ⟨9, 0⟩] RED, Polyline.mk [⟨10, 10⟩, ⟨30, 30⟩] GREEN], some 1⟩
      ⟨10, 10, true, false⟩ =
      Except.ok ⟨3, [Polyline.mk [⟨0, 0⟩, ⟨9, 0⟩] RED, Polyline.mk [⟨10, 10⟩, ⟨30, 30⟩] GREEN,
        Polyline.new BLUE], some 2⟩ := by
    rw [updateLeftButton_pressed exactDistance
      ⟨2, [Polyline.mk [⟨0, 0⟩, ⟨9, 0⟩] RED, Polyline.mk [⟨10, 10⟩, ⟨30, 30⟩] GREEN], some 1⟩
      ⟨10, 10, true, false⟩ 1 (Polyline.mk [⟨10, 10⟩, ⟨30, 30⟩] GREEN) rfl rfl rfl, hclose]
    rfl
  rw [updateFrame_of_left exactDistance _ _ _ hleft]
  rfl

/-- C18 at the closing click of `updateFrame_close_sample`: the finished red
polyline is where it was, unchanged, and the line being built is the new
polyline at position 2. -/
theorem C18_closed_polylines_untouched_witness :
    OpenShapeInvariant
      ⟨2, [Polyline.mk [⟨0, 0⟩, ⟨9, 0⟩] RED, Polyline.mk [⟨10, 10⟩, ⟨30, 30⟩] GREEN], some 1⟩ ∧
    ([Polyline.mk [⟨0, 0⟩, ⟨9, 0⟩] RED, Polyline.mk [⟨10, 10⟩, ⟨30, 30⟩] GREEN,
        Polyline.new BLUE] : List Polyline)[0]? =
      ([Polyline.mk [⟨0, 0⟩, ⟨9, 0⟩] RED,
        Polyline.mk [⟨10, 10⟩, ⟨30, 30⟩] GREEN] : List Polyline)[0]? := by
  have hinv : OpenShapeInvariant
      ⟨2, [Polyline.mk [⟨0, 0⟩, ⟨9, 0⟩] RED, Polyline.mk [⟨10, 10⟩, ⟨30, 30⟩] GREEN],
        some 1⟩ := by
    constructor
    · simp
    · rfl
  exact ⟨hinv, ((C18_closed_polylines_untouched exactDistance _ _ ⟨10, 10, true, false⟩ hinv
    updateFrame_close_sample).2.1 rfl).1 0 (by decide)⟩

/-! ## The highlight of the draw phase -/

/-- Converting an integer held in a `float` back to `int` gives the integer. -/
theorem floatToInt_intCast (n : Int) : floatToInt (n : ℚ) = n := by
  unfold floatToInt
  split <;> simp

/-- The rectangle the draw phase issues for the highlight is the 6 by 6 yellow
rectangle with its corner 3 left of and 3 above the mouse. -/
theorem highlight_call_eq (input : FrameInput) :
    DrawCall.DrawRectangle
      (floatToInt (input.mousePos.x - ((POINT_CLICK_RADIUS / 2 : Int) : ℚ)))
      (floatToInt (input.mousePos.y - ((POINT_CLICK_RADIUS / 2 : Int) : ℚ)))
      POINT_CLICK_RADIUS POINT_CLICK_RADIUS YELLOW = highlightSpec input := by
  have hr : POINT_CLICK_RADIUS / 2 = 3 := by decide
  have hx : (input.mouseX : ℚ) - ((3 : Int) : ℚ) = ((input.mouseX - 3 : Int) : ℚ) := by
    push_cast
    rfl
  have hy : (input.mouseY : ℚ) - ((3 : Int) : ℚ) = ((input.mouseY - 3 : Int) : ℚ) := by
    push_cast
    rfl
  simp only [FrameInput.mousePos, hr, hx, hy, floatToInt_intCast, highlightSpec]
  rfl

/-- No call of the loop body of `Draw` is a rectangle of width 6. -/
theorem DrawBody_no_highlight (self : Polyline) (i : Nat) (input : FrameInput) :
    highlightSpec input ∉ self.DrawBody i := by
  unfold Polyline.DrawBody
  split
  · simp
  · split
    · simp [highlightSpec, POINT_WIDTH]
    · split <;> simp [highlightSpec, POINT_WIDTH]

/-- No call of `Draw` is the highlight rectangle. -/
theorem Draw_no_highlight (self : Polyline) (input : FrameInput) :
    highlightSpec input ∉ self.Draw.1 := by
  intro hmem
  simp only [Polyline.Draw, List.mem_flatMap] at hmem
  obtain ⟨i, -, hi⟩ := hmem
  exact DrawBody_no_highlight self i input hi

/-- No call of `DrawPreview` is the highlight rectangle. -/
theorem DrawPreview_no_highlight (self : Polyline) (point : Vector2) (c : Color)
    (input : FrameInput) : highlightSpec input ∉ (self.DrawPreview point c).1 := by
  unfold Polyline.DrawPreview
  split
  · simp
  · split <;> simp [highlightSpec]

/-- The draw phase, for a line being built that exists: the calls of every
polyline, the preview, and the highlight rectangle exactly when the mouse is
close to the first point of the line being built. -/
theorem drawFrame_eq (Vector2Distance : Vector2 → Vector2 → ℚ) (s : AppState)
    (input : FrameInput) (i : Nat) (line : Polyline)
    (hopen : s.g_lineBeingBuilt = some i) (hline : s.g_lines[i]? = some line) :
    drawFrame Vector2Distance s input =
      Except.ok (s.g_lines.flatMap (fun l => l.Draw.1) ++
        (line.DrawPreview input.mousePos LIGHTGRAY).1 ++
        if line.IsCloseToFirstPoint Vector2Distance input.mousePos (POINT_CLICK_RADIUS : ℚ)
        then [highlightSpec input] else []) := by
  unfold drawFrame
  simp only [hopen, hline, highlight_call_eq]

/-- C19: in a state whose line being built exists, the draw phase completes,
and the highlight rectangle is among its calls exactly when
`IsCloseToFirstPoint(mousePos, POINT_CLICK_RADIUS)` holds for the line being
built, which, the distance function being non-negative, is exactly when that
line has a first point at distance at most 6 from the mouse.  Under that same
condition a left click in that state runs the close transition, and otherwise
the point-add transition.  For a line being built without points the
highlight is not drawn. -/
theorem C19_highlight_iff_close_branch (Vector2Distance : Vector2 → Vector2 → ℚ)
    (s : AppState) (input : FrameInput) (i : Nat) (line : Polyline)
    (hopen : s.g_lineBeingBuilt = some i) (hline : s.g_lines[i]? = some line)
    (hnonneg : ∀ a b, 0 ≤ Vector2Distance a b) :
    (∃ calls, drawFrame Vector2Distance s input = Except.ok calls ∧
      (highlightSpec input ∈ calls ↔
        line.IsCloseToFirstPoint Vector2Distance input.mousePos (POINT_CLICK_RADIUS : ℚ) = true) ∧
      (line.m_pointsCount = 0 → highlightSpec input ∉ calls)) ∧
    (line.IsCloseToFirstPoint Vector2Distance input.mousePos (POINT_CLICK_RADIUS : ℚ) = true ↔
      ∃ first, line.m_points.head? = some first ∧
        Vector2Distance first input.mousePos ≤ 6) ∧
    (input.leftPressed = true →
      (line.IsCloseToFirstPoint Vector2Distance input.mousePos (POINT_CLICK_RADIUS : ℚ) = true →
        updateLeftButton Vector2Distance s input = closeTransition s) ∧
      (line.IsCloseToFirstPoint Vector2Distance input.mousePos (POINT_CLICK_RADIUS : ℚ) = false →
        updateLeftButton Vector2Distance s input = addPointTransition s input)) := by
  have hmem : ∀ calls, drawFrame Vector2Distance s input = Except.ok calls →
      (highlightSpec input ∈ calls ↔
        line.IsCloseToFirstPoint Vector2Distance input.mousePos (POINT_CLICK_RADIUS : ℚ) = true) := by
    intro calls hcalls
    rw [drawFrame_eq Vector2Distance s input i line hopen hline] at hcalls
    simp only [Except.ok.injEq] at hcalls
    subst hcalls
    have hlines : highlightSpec input ∉ s.g_lines.flatMap (fun l => l.Draw.1) := by
      intro hm
      simp only [List.mem_flatMap] at hm
      obtain ⟨l, -, hl⟩ := hm
      exact Draw_no_highlight l input hl
    have hprev := DrawPreview_no_highlight line input.mousePos LIGHTGRAY input
    cases hclose : line.IsCloseToFirstPoint Vector2Distance input.mousePos
      (POINT_CLICK_RADIUS : ℚ) with
    | false => simp [hlines, hprev]
    | true => simp
  have hempty : line.m_pointsCount = 0 →
      line.IsCloseToFirstPoint Vector2Distance input.mousePos (POINT_CLICK_RADIUS : ℚ) = false := by
    intro h0
    obtain ⟨pts, c⟩ := line
    cases pts with
    | nil => rfl
    | cons q rest => simp [Polyline.m_pointsCount] at h0
  refine ⟨⟨_, drawFrame_eq Vector2Distance s input i line hopen hline,
    hmem _ (drawFrame_eq Vector2Distance s input i line hopen hline), ?_⟩, ?_, ?_⟩
  · intro h0 hin
    have := (hmem _ (drawFrame_eq Vector2Distance s input i line hopen hline)).mp hin
    rw [hempty h0] at this
    cases this
  · obtain ⟨pts, c⟩ := line
    cases pts with
    | nil => simp [Polyline.IsCloseToFirstPoint]
    | cons q rest =>
      simp [Polyline.IsCloseToFirstPoint, abs_of_nonneg (hnonneg q input.mousePos),
        POINT_CLICK_RADIUS]
  · intro hleft
    rw [updateLeftButton_pressed Vector2Distance s input i line hleft hopen hline]
    constructor
    · intro hc
      simp [hc]
    · intro hc
      simp [hc]

/-- The distance function `exactDistance` is never negative. -/
theorem exactDistance_nonneg (a b : Vector2) : 0 ≤ exactDistance a b :=
  Rat.sqrt_nonneg _

/-- C19 with the open polyline (10, 10), (30, 30) and the mouse at (10, 10):
the draw phase completes and the highlight rectangle is among its calls. -/
theorem C19_highlight_iff_close_branch_witness :
    ∃ calls,
      drawFrame exactDistance ⟨1, [Polyline.mk [⟨10, 10⟩, ⟨30, 30⟩] RED], some 0⟩
        ⟨10, 10, false, false⟩ = Except.ok calls ∧
      highlightSpec ⟨10, 10, false, false⟩ ∈ calls := by
  have hclose : (Polyline.mk [⟨10, 10⟩, ⟨30, 30⟩] RED).IsCloseToFirstPoint exactDistance
      (FrameInput.mousePos ⟨10, 10, false, false⟩) (POINT_CLICK_RADIUS : ℚ) = true := by
    have hpos : FrameInput.mousePos ⟨10, 10, false, false⟩ = (⟨10, 10⟩ : Vector2) := by
      simp [FrameInput.mousePos]
    rw [hpos]
    simp [Polyline.IsCloseToFirstPoint, exactDistance_self, POINT_CLICK_RADIUS]
  obtain ⟨calls, hcalls, hiff, -⟩ := (C19_highlight_iff_close_branch exactDistance
    ⟨1, [Polyline.mk [⟨10, 10⟩, ⟨30, 30⟩] RED], some 0⟩ ⟨10, 10, false, false⟩ 0
    (Polyline.mk [⟨10, 10⟩, ⟨30, 30⟩] RED) rfl rfl exactDistance_nonneg).1
  exact ⟨calls, hcalls, hiff.mpr hclose⟩

/-! ## The palette -/

/-- When a new line is started, by `startNewLine` or by the reset transition,
`GetNextLineColor` has returned a colour `c`, the cursor is the one it left,
and the last polyline of `g_lines` is a polyline without points whose colour is
`c`. -/
theorem created_line (s s1 : AppState)
    (h : startNewLine s = Except.ok s1 ∨ resetTransition s = Except.ok s1) :
    ∃ c s2, GetNextLineColor s = Except.ok (c, s2) ∧
      s1.g_nextColorIndex = s2.g_nextColorIndex ∧
      s1.g_lines.getLast? = some (Polyline.mk [] c) := by
  rcases h with h | h
  · obtain ⟨c, s2, hG, rfl⟩ := (startNewLine_ok_iff s s1).mp h
    exact ⟨c, s2, hG, rfl, by simp [Polyline.new]⟩
  · obtain ⟨c, s2, hG, rfl⟩ := (resetTransition_ok_iff s s1).mp h
    exact ⟨c, s2, hG, rfl, by simp [Polyline.new]⟩

/-- C20: every entry of the palette differs from the entry after it, the
entry after the last one being the first; hence two successive calls of
`GetNextLineColor`, from whatever cursor they return, give different colours,
also across the wrap of the cursor; and two polylines created one right after
the other, each by the start of a new line after a close or by a reset, have
different colours. -/
theorem C20_successive_colors_differ :
    (∀ i : Nat, i < g_colors.length →
      g_colors[i]? ≠ g_colors[(i + 1) % g_colors.length]?) ∧
    (∀ (s s2 s3 : AppState) (c1 c2 : Color),
      GetNextLineColor s = Except.ok (c1, s2) → GetNextLineColor s2 = Except.ok (c2, s3) →
        c1 ≠ c2) ∧
    (∀ (s s1 s2 : AppState) (p1 p2 : Polyline),
      (startNewLine s = Except.ok s1 ∨ resetTransition s = Except.ok s1) →
      (startNewLine s1 = Except.ok s2 ∨ resetTransition s1 = Except.ok s2) →
      s1.g_lines.getLast? = some p1 → s2.g_lines.getLast? = some p2 →
        p1.m_color ≠ p2.m_color) := by
  have hadj : ∀ i : Nat, i < 6 → g_colors[i]? ≠ g_colors[(i + 1) % 6]? := by
    intro i hi
    interval_cases i <;> simp [g_colors, RED, GREEN, BLUE, PINK, ORANGE]
  have hcalls : ∀ (s s2 s3 : AppState) (c1 c2 : Color),
      GetNextLineColor s = Except.ok (c1, s2) → GetNextLineColor s2 = Except.ok (c2, s3) →
        c1 ≠ c2 := by
    intro s s2 s3 c1 c2 h1 h2
    obtain ⟨h0, h6, hc1, rfl⟩ := (GetNextLineColor_ok_iff s c1 s2).mp h1
    obtain ⟨-, -, hc2, -⟩ := (GetNextLineColor_ok_iff _ c2 s3).mp h2
    simp only at hc2
    have hnext : ((s.g_nextColorIndex + 1) % 6).toNat = (s.g_nextColorIndex.toNat + 1) % 6 := by
      omega
    rw [hnext] at hc2
    intro heq
    subst heq
    exact hadj s.g_nextColorIndex.toNat (by omega) (hc1.trans hc2.symm)
  refine ⟨hadj, hcalls, ?_⟩
  intro s s1 s2 p1 p2 hfirst hsecond hp1 hp2
  obtain ⟨c1, t1, hG1, hidx1, hlast1⟩ := created_line s s1 hfirst
  obtain ⟨c2, t2, hG2, -, hlast2⟩ := created_line s1 s2 hsecond
  have hG2t := GetNextLineColor_cursor s1 t1 c2 t2 hG2 hidx1.symm
  have hne := hcalls s t1 _ c1 c2 hG1 hG2t
  rw [hlast1] at hp1
  rw [hlast2] at hp2
  simp only [Option.some.injEq] at hp1 hp2
  rw [← hp1, ← hp2]
  exact hne

/-- C20 at the wrap of the cursor: the call at cursor 5 returns `GREEN`, the
next call, at cursor 0, returns `RED`, and the two colours differ; a reset at
cursor 5 followed by a reset creates a green polyline, then a red one. -/
theorem C20_successive_colors_differ_witness :
    GetNextLineColor ⟨5, [], none⟩ = Except.ok (GREEN, ⟨0, [], none⟩) ∧
    GetNextLineColor ⟨0, [], none⟩ = Except.ok (RED, ⟨1, [], none⟩) ∧
    GREEN ≠ RED ∧
    resetTransition ⟨5, [], none⟩ = Except.ok ⟨0, [Polyline.mk [] GREEN], some 0⟩ ∧
    resetTransition ⟨0, [Polyline.mk [] GREEN], some 0⟩ =
      Except.ok ⟨1, [Polyline.mk [] RED], some 0⟩ ∧
    (Polyline.mk [] GREEN).m_color ≠ (Polyline.mk [] RED).m_color :=
  ⟨rfl, rfl, C20_successive_colors_differ.2.1 ⟨5, [], none⟩ ⟨0, [], none⟩ ⟨1, [], none⟩
    GREEN RED rfl rfl, rfl, rfl,
    C20_successive_colors_differ.2.2 ⟨5, [], none⟩ ⟨0, [Polyline.mk [] GREEN], some 0⟩
      ⟨1, [Polyline.mk [] RED], some 0⟩ _ _ (Or.inr rfl) (Or.inr rfl) rfl rfl⟩

end PolylineApp
